import Mathlib

/-!
Verification model of the network request admission scheduler in
`services/network/resource_scheduler/resource_scheduler.cc`.

The C++ core is shallowly embedded: every definition below mirrors a function,
constant or data member of that file (names are kept where Lean allows).
Machine integers are modelled as `Nat`/`Int`; the `uint32_t` FIFO-ordering
counter wraps modulo `2^32`; the C++ `double non_delayable_weight` is modelled
as a rational number (the relevant field-trial values are exact decimals);
`base::Optional` is `Option`; `base::TimeTicks`/`base::TimeDelta` are `Nat`
tick counts.  Pointer identity of `ScheduledResourceRequestImpl` objects is
modelled by a numeric request id `rid`; pointer sets / pointer-keyed maps
become lists of request values indexed by `rid` (rids are unique, as pointers
are).  Telemetry (UMA histograms, net-log, trace events) has no observable
effect on scheduling and is omitted.
-/

namespace ResourceSchedulerModel

/-! ## net::RequestPriority (net/base/request_priority.h) -/

def THROTTLED : Nat := 0
def IDLE : Nat := 1
def LOWEST : Nat := 2
def LOW : Nat := 3
def MEDIUM : Nat := 4
def HIGHEST : Nat := 5

/-! ## net::EffectiveConnectionType (net/nqe/effective_connection_type.h) -/

def EFFECTIVE_CONNECTION_TYPE_UNKNOWN : Nat := 0
def EFFECTIVE_CONNECTION_TYPE_OFFLINE : Nat := 1
def EFFECTIVE_CONNECTION_TYPE_SLOW_2G : Nat := 2
def EFFECTIVE_CONNECTION_TYPE_2G : Nat := 3
def EFFECTIVE_CONNECTION_TYPE_3G : Nat := 4
def EFFECTIVE_CONNECTION_TYPE_4G : Nat := 5

/-! ## Scheduling constants (resource_scheduler.cc lines 96-110) -/

def kMaxNumDelayableRequestsPerHostPerClient : Nat := 6

def kMaxNumDelayableWhileLayoutBlockingPerClient : Nat := 1

def kDelayablePriorityThreshold : Nat := MEDIUM

def kInFlightNonDelayableRequestCountPerClientThreshold : Nat := 1

/-! ## Request attribute bitmask (resource_scheduler.cc lines 49-53) -/

abbrev RequestAttributes := Nat

def kAttributeNone : RequestAttributes := 0x00
def kAttributeInFlight : RequestAttributes := 0x01
def kAttributeDelayable : RequestAttributes := 0x02
def kAttributeLayoutBlocking : RequestAttributes := 0x04

/-- `Client::RequestAttributesAreSet` (line 701):
`(request_attributes & matching_attributes) == matching_attributes`. -/
def RequestAttributesAreSet (request_attributes matching_attributes : RequestAttributes) :
    Bool :=
  request_attributes.land matching_attributes == matching_attributes

/-! ## RequestPriorityParams (lines 145-169) -/

structure RequestPriorityParams where
  priority : Nat
  intra_priority : Int
deriving DecidableEq

/-- `RequestPriorityParams::GreaterThan` (lines 161-165). -/
def RequestPriorityParams.GreaterThan (a b : RequestPriorityParams) : Bool :=
  if a.priority ≠ b.priority then decide (a.priority > b.priority)
  else decide (a.intra_priority > b.intra_priority)

/-! ## ScheduledResourceRequestImpl (lines 228-364)

One structure models the `ScheduledResourceRequestImpl` handle together with
the fields it reads from its underlying `net::URLRequest` and the per-origin
`HttpServerProperties::SupportsRequestPriority` lookup (cached per request,
exactly as the C++ caches `host_port_pair_`). -/

structure Request where
  /-- pointer identity of the handle -/
  rid : Nat
  client_id : Nat
  /-- `url_request()->priority()` -/
  url_priority : Nat
  /-- `priority_` (RequestPriorityParams) -/
  priority : RequestPriorityParams
  attributes : RequestAttributes
  fifo_ordering : Nat
  /-- `host_port_pair_`, abstract host identity -/
  host : Nat
  is_async : Bool
  /-- `url_request.url().SchemeIsHTTPOrHTTPS()` -/
  url_is_http : Bool
  /-- `HttpServerProperties::SupportsRequestPriority(scheme_host_port, nik)` -/
  supports_priority : Bool
  /-- `url_request()->creation_time()` (ticks) -/
  creation_time : Nat
  /-- `url_request->load_flags() & net::LOAD_IGNORE_LIMITS` -/
  load_ignore_limits : Bool
  /-- `CanThrottleNetworkTrafficAnnotationHash(unique_id_hash_code)` -/
  can_throttle_traffic_tag : Bool
  /-- `url_request->status().is_success()` -/
  status_success : Bool
  ready : Bool
  deferred : Bool
deriving DecidableEq

/-- `ScheduledResourceSorter::operator()` (lines 370-384). -/
def ScheduledResourceSorter (a b : Request) : Bool :=
  if a.priority ≠ b.priority then a.priority.GreaterThan b.priority
  else decide (a.fifo_ordering < b.fifo_ordering)

inductive StartMode
  | START_SYNC
  | START_ASYNC
deriving DecidableEq

/-- Result of `ScheduledResourceRequestImpl::Start` (lines 274-299): the
updated handle, whether a task to restart it was posted (`START_ASYNC` with a
deferred request), and whether the resume callback ran. -/
structure StartEffect where
  request : Request
  posted_start_task : Bool
  resumed : Bool
deriving DecidableEq

/-- `ScheduledResourceRequestImpl::Start` (lines 274-299). -/
def Request.start (r : Request) (mode : StartMode) : StartEffect :=
  if r.status_success = false then ⟨r, false, false⟩
  else if r.deferred then
    if mode = StartMode.START_ASYNC then ⟨r, true, false⟩
    else ⟨{ r with deferred := false, ready := true }, false, true⟩
  else ⟨{ r with ready := true }, false, false⟩

/-! ## ResourceSchedulerParamsManager::ParamsForNetworkQuality

The params table itself is an external collaborator (outside this file); its
record of per-network-quality knobs is consumed by the scheduler. -/

structure ParamsForNetworkQuality where
  max_delayable_requests : Nat
  /-- C++ `double`, modelled as an exact rational -/
  non_delayable_weight : ℚ
  delay_requests_on_multiplexed_connections : Bool
  max_queuing_time : Option Nat
  http_rtt_multiplier_for_proactive_throttling : Option ℚ
deriving DecidableEq

/-- `static_cast<size_t>(non_delayable_weight * count)` (lines 1085-1087): the
product of the C++ double `w` (modelled as the exact rational it denotes) with
an integral count, truncated toward zero.  Written on the rational's
numerator/denominator so that it evaluates by integer arithmetic:
`w * count = (w.num * count) / w.den` exactly, and C++ integral conversion
truncates toward zero. -/
def weightedCount (w : ℚ) (count : Nat) : Nat :=
  ((w.num * (count : Int)) / (w.den : Int)).toNat

/-! ## ResourceScheduler::Client state (lines 394-1334)

Fields after `p2p_connections_count_ended_timer_` model the environment the
client reads: the scheduler-wide `enabled()` bit, the
`kPauseBrowserInitiatedHeavyTrafficForP2P` feature flag, the two params-manager
P2P knobs, and `NetworkQualityEstimator::GetHttpRTT()`.
`outstanding_scan_tasks` models the task queue: the number of
`LoadAnyStartablePendingRequests` tasks posted (line 1185) and not yet run. -/

structure Client where
  is_browser_client : Bool
  pending_requests : List Request
  /-- `RequestQueue::fifo_ordering_ids_` (uint32) -/
  fifo_ordering_ids : Nat
  in_flight_requests : List Request
  in_flight_delayable_count : Nat
  total_layout_blocking_count : Nat
  num_skipped_scans_due_to_scheduled_start : Nat
  outstanding_scan_tasks : Nat
  params_for_network_quality : ParamsForNetworkQuality
  last_non_delayable_request_start : Option Nat
  last_non_delayable_request_end : Option Nat
  effective_connection_type : Nat
  p2p_connections_count : Nat
  p2p_connections_count_active_timestamp : Option Nat
  p2p_connections_count_end_timestamp : Option Nat
  scheduler_enabled : Bool
  feature_pause_browser_heavy_p2p : Bool
  time_to_pause_after_p2p_end : Nat
  max_wait_time_p2p_connections : Option Nat
  http_rtt : Option Nat
deriving DecidableEq

/-! ## RequestQueue (lines 171-217, 386-391) -/

/-- `RequestQueue::MakeFifoOrderingId` (lines 206-209); the counter is a
`uint32_t`. -/
def MakeFifoOrderingId (fifo_ordering_ids : Nat) : Nat :=
  (fifo_ordering_ids + 1) % 4294967296

/-- Ordered insertion into the `std::multiset<..., ScheduledResourceSorter>`:
the new element is placed after every element it does not strictly precede. -/
def insertSorted (r : Request) : List Request → List Request
  | [] => [r]
  | x :: xs => if ScheduledResourceSorter r x then r :: x :: xs
               else x :: insertSorted r xs

/-- `RequestQueue::Insert` (lines 386-391): assign a fresh fifo ordering id,
then insert into the ordered multiset. -/
def Client.pendingInsert (c : Client) (r : Request) : Client :=
  let fid := MakeFifoOrderingId c.fifo_ordering_ids
  let r1 := { r with fifo_ordering := fid }
  { c with fifo_ordering_ids := fid,
           pending_requests := insertSorted r1 c.pending_requests }

/-- `RequestQueue::Erase` (lines 183-188): remove the handle (pointer
identity = `rid`; rids are unique, so filtering equals erasing the one
element). -/
def Client.pendingErase (c : Client) (rid : Nat) : Client :=
  { c with pending_requests := c.pending_requests.filter (fun x => x.rid ≠ rid) }

/-- `RequestQueue::IsQueued` (lines 195-197). -/
def Client.isQueued (c : Client) (rid : Nat) : Bool :=
  c.pending_requests.any (fun x => x.rid == rid)

/-- `base::Contains(in_flight_requests_, request)`. -/
def Client.inFlightContains (c : Client) (rid : Nat) : Bool :=
  c.in_flight_requests.any (fun x => x.rid == rid)

def Client.findInFlight (c : Client) (rid : Nat) : Option Request :=
  c.in_flight_requests.find? (fun x => x.rid == rid)

def Client.findPending (c : Client) (rid : Nat) : Option Request :=
  c.pending_requests.find? (fun x => x.rid == rid)

/-- The live handle for `rid` (pending or in flight). -/
def Client.findRequest (c : Client) (rid : Nat) : Option Request :=
  match c.findPending rid with
  | some r => some r
  | none => c.findInFlight rid

/-- In-place mutation through the handle pointer: update the request wherever
it is stored. -/
def updateReqList (l : List Request) (rid : Nat) (f : Request → Request) :
    List Request :=
  l.map (fun x => if x.rid = rid then f x else x)

def Client.mutateRequest (c : Client) (rid : Nat) (f : Request → Request) :
    Client :=
  { c with pending_requests := updateReqList c.pending_requests rid f,
           in_flight_requests := updateReqList c.in_flight_requests rid f }

/-! ## Attribute bookkeeping (lines 658-769) -/

/-- `Client::SetRequestAttributes` (lines 706-732): if the attributes change,
adjust the two cached counters — decrement for the old bits, increment for
the new bits (written as one subtraction-then-addition per counter) — and
store the new attributes on the handle (wherever it lives).  Returns the
updated client and handle. -/
def Client.SetRequestAttributes (c : Client) (r : Request)
    (attributes : RequestAttributes) : Client × Request :=
  if r.attributes = attributes then (c, r)
  else
    ({ (c.mutateRequest r.rid (fun x => { x with attributes := attributes })) with
        in_flight_delayable_count :=
          c.in_flight_delayable_count
            - (if RequestAttributesAreSet r.attributes
                  (kAttributeInFlight.lor kAttributeDelayable) then 1 else 0)
            + (if RequestAttributesAreSet attributes
                  (kAttributeInFlight.lor kAttributeDelayable) then 1 else 0),
        total_layout_blocking_count :=
          c.total_layout_blocking_count
            - (if RequestAttributesAreSet r.attributes kAttributeLayoutBlocking
               then 1 else 0)
            + (if RequestAttributesAreSet attributes kAttributeLayoutBlocking
               then 1 else 0) },
     { r with attributes := attributes })

/-- `Client::DetermineRequestAttributes` (lines 734-769). -/
def Client.DetermineRequestAttributes (c : Client) (r : Request) :
    RequestAttributes :=
  let attributes := kAttributeNone
  let attributes := if c.inFlightContains r.rid then attributes.lor kAttributeInFlight
                    else attributes
  if RequestAttributesAreSet r.attributes kAttributeLayoutBlocking then
    attributes.lor kAttributeLayoutBlocking
  else if r.url_priority < kDelayablePriorityThreshold then
    if c.params_for_network_quality.delay_requests_on_multiplexed_connections then
      attributes.lor kAttributeDelayable
    else if r.supports_priority = false then
      attributes.lor kAttributeDelayable
    else attributes
  else attributes

/-- `Client::ReachedMaxRequestsPerHostPerClient` (lines 771-802). -/
def Client.ReachedMaxRequestsPerHostPerClient (c : Client)
    (active_request_host : Nat) (supports_priority : Bool) : Bool :=
  if supports_priority &&
     c.params_for_network_quality.delay_requests_on_multiplexed_connections then
    false
  else
    kMaxNumDelayableRequestsPerHostPerClient ≤
      (c.in_flight_requests.filter (fun x => x.host == active_request_host)).length

/-! ## The admission decision (lines 899-1171) -/

/-- `Client::ShouldThrottleBrowserInitiatedRequestDueToP2PConnections`
(lines 901-969). -/
def Client.ShouldThrottleBrowserInitiatedRequestDueToP2PConnections
    (c : Client) (r : Request) (now : Nat) : Bool :=
  if c.feature_pause_browser_heavy_p2p = false then false
  else if c.p2p_connections_count = 0 ∧
          c.p2p_connections_count_end_timestamp = none then false
  else if c.p2p_connections_count = 0 ∧
          c.time_to_pause_after_p2p_end ≤
            now - c.p2p_connections_count_end_timestamp.getD 0 then false
  else if c.effective_connection_type ≤ EFFECTIVE_CONNECTION_TYPE_OFFLINE ∨
          EFFECTIVE_CONNECTION_TYPE_4G ≤ c.effective_connection_type then false
  else if r.url_priority = HIGHEST then false
  else if 0 < c.p2p_connections_count ∧
          c.max_wait_time_p2p_connections.getD 0 <
            now - c.p2p_connections_count_active_timestamp.getD 0 then false
  else if r.can_throttle_traffic_tag = false then false
  else true

/-- `Client::IsNonDelayableRequestAnticipated` (lines 1131-1171).  The
`http_rtt_multiplier <= 0` test is written on the rational's numerator
(equivalent, as the denominator is positive), and the
`base::TimeDelta * double` product `http_rtt * multiplier` is the truncated
integer tick product `(rtt * num) / den`, matching `base::TimeDelta`'s
integral internal representation. -/
def Client.IsNonDelayableRequestAnticipated (c : Client) (now : Nat) : Bool :=
  match c.params_for_network_quality.http_rtt_multiplier_for_proactive_throttling with
  | none => false
  | some http_rtt_multiplier =>
    if http_rtt_multiplier.num ≤ 0 then false
    else
      match c.last_non_delayable_request_start with
      | none => false
      | some lastStart =>
        match c.http_rtt with
        | none => false
        | some rtt =>
          let threshold_for_proactive_throttling : Int :=
            ((rtt : Int) * http_rtt_multiplier.num) / (http_rtt_multiplier.den : Int)
          let time_since : Int := ((now - lastStart : Nat) : Int)
          if threshold_for_proactive_throttling ≤ time_since then false
          else true

inductive ShouldStartReqResult
  | DO_NOT_START_REQUEST_AND_STOP_SEARCHING
  | DO_NOT_START_REQUEST_AND_KEEP_SEARCHING
  | START_REQUEST
deriving DecidableEq

/-- The `max_queuing_time` escape hatch inside `ShouldStartRequest`
(lines 1053-1057): the request has been queued at least `max_queuing_time`. -/
def Client.exceededMaxQueuingTime (c : Client) (r : Request) (now : Nat) : Bool :=
  match c.params_for_network_quality.max_queuing_time with
  | some t => t ≤ now - r.creation_time
  | none => false

/-- `Client::ShouldStartRequest` (lines 1027-1128), the main scheduling
algorithm. -/
def Client.ShouldStartRequest (c : Client) (r : Request) (now : Nat) :
    ShouldStartReqResult :=
  if c.scheduler_enabled = false then .START_REQUEST
  else if c.is_browser_client then
    if c.ShouldThrottleBrowserInitiatedRequestDueToP2PConnections r now then
      .DO_NOT_START_REQUEST_AND_KEEP_SEARCHING
    else .START_REQUEST
  else if r.is_async = false then .START_REQUEST
  else if r.url_is_http = false then .START_REQUEST
  else if c.exceededMaxQueuingTime r now then .START_REQUEST
  else
    let priority_delayable :=
      c.params_for_network_quality.delay_requests_on_multiplexed_connections
    if priority_delayable = false ∧ r.supports_priority then .START_REQUEST
    else if RequestAttributesAreSet r.attributes kAttributeDelayable = false then
      .START_REQUEST
    else
      let num_non_delayable_requests_weighted :=
        weightedCount c.params_for_network_quality.non_delayable_weight
          (c.in_flight_requests.length - c.in_flight_delayable_count)
      if c.params_for_network_quality.max_delayable_requests ≤
           c.in_flight_delayable_count + num_non_delayable_requests_weighted then
        .DO_NOT_START_REQUEST_AND_STOP_SEARCHING
      else if c.ReachedMaxRequestsPerHostPerClient r.host r.supports_priority then
        .DO_NOT_START_REQUEST_AND_KEEP_SEARCHING
      else if c.total_layout_blocking_count ≠ 0 ∧
              kInFlightNonDelayableRequestCountPerClientThreshold <
                c.in_flight_requests.length - c.in_flight_delayable_count then
        .DO_NOT_START_REQUEST_AND_STOP_SEARCHING
      else if c.total_layout_blocking_count ≠ 0 ∧
              0 < c.in_flight_requests.length ∧
              kMaxNumDelayableWhileLayoutBlockingPerClient ≤
                c.in_flight_delayable_count then
        .DO_NOT_START_REQUEST_AND_STOP_SEARCHING
      else if c.IsNonDelayableRequestAnticipated now then
        .DO_NOT_START_REQUEST_AND_STOP_SEARCHING
      else .START_REQUEST

/-! ## Client operations (lines 429-528, 636-697, 868-897, 1182-1233) -/

/-- `Client::StartRequest` (lines 868-897), telemetry omitted: update
`last_non_delayable_request_start_`, run `InsertInFlightRequest`
(lines 636-656: add to the in-flight set, then recompute and set attributes),
then `request->Start(start_mode)`. -/
def Client.StartRequest (c : Client) (r : Request) (start_mode : StartMode)
    (now : Nat) : Client :=
  let c1 := if RequestAttributesAreSet r.attributes kAttributeDelayable = false then
              { c with last_non_delayable_request_start := some now }
            else c
  let c2 := { c1 with in_flight_requests := c1.in_flight_requests ++ [r] }
  let sr := c2.SetRequestAttributes r (c2.DetermineRequestAttributes r)
  let e := sr.2.start start_mode
  sr.1.mutateRequest r.rid (fun _ => e.request)

/-- `Client::ScheduleRequest` (lines 429-440): compute attributes, then either
start synchronously or insert into the pending queue. -/
def Client.ScheduleRequest (c : Client) (r : Request) (now : Nat) : Client :=
  let sr := c.SetRequestAttributes r (c.DetermineRequestAttributes r)
  if sr.1.ShouldStartRequest sr.2 now = .START_REQUEST then
    sr.1.StartRequest sr.2 .START_SYNC now
  else sr.1.pendingInsert sr.2

/-- `Client::ScheduleLoadAnyStartablePendingRequests` (lines 1182-1190): post a
task only when no scan is already scheduled, and count the skipped scans. -/
def Client.ScheduleLoadAnyStartablePendingRequests (c : Client) : Client :=
  { c with
      outstanding_scan_tasks :=
        if c.num_skipped_scans_due_to_scheduled_start = 0 then
          c.outstanding_scan_tasks + 1
        else c.outstanding_scan_tasks,
      num_skipped_scans_due_to_scheduled_start :=
        c.num_skipped_scans_due_to_scheduled_start + 1 }

/-- The `while` loop of `Client::LoadAnyStartablePendingRequests`
(lines 1207-1232).  The iterator is the current suffix of the pending queue;
an admission erases the request, starts it asynchronously and restarts the
walk from the new highest-priority entry.  Fuel bounds the number of loop
iterations; the top-level entry point supplies `(n+1)^2` fuel, which is more
than any execution of the loop over `n` pending requests can consume. -/
def Client.loadLoop (now : Nat) : Nat → Client → List Request → Client
  | 0, c, _ => c
  | _ + 1, c, [] => c
  | fuel + 1, c, r :: rest =>
    match c.ShouldStartRequest r now with
    | .START_REQUEST =>
      let c1 := c.pendingErase r.rid
      let c2 := c1.StartRequest r .START_ASYNC now
      Client.loadLoop now fuel c2 c2.pending_requests
    | .DO_NOT_START_REQUEST_AND_KEEP_SEARCHING => Client.loadLoop now fuel c rest
    | .DO_NOT_START_REQUEST_AND_STOP_SEARCHING => c

/-- `Client::LoadAnyStartablePendingRequests` (lines 1192-1233): reset the
skipped-scans counter, then walk the pending queue from the highest-priority
entry. -/
def Client.LoadAnyStartablePendingRequests (c : Client) (now : Nat) : Client :=
  let c0 := { c with num_skipped_scans_due_to_scheduled_start := 0 }
  Client.loadLoop now
    ((c0.pending_requests.length + 1) * (c0.pending_requests.length + 1))
    c0 c0.pending_requests

/-- Execution of a task posted by `ScheduleLoadAnyStartablePendingRequests`:
run the scan and consume the posted task. -/
def Client.RunPostedScan (c : Client) (now : Nat) : Client :=
  { c.LoadAnyStartablePendingRequests now with
      outstanding_scan_tasks := c.outstanding_scan_tasks - 1 }

/-- `Client::RemoveRequest` (lines 442-459): a pending request is simply
erased; an in-flight one updates `last_non_delayable_request_end_`, is erased
from the in-flight set with its attributes cleared
(`EraseInFlightRequest`, lines 658-663), and triggers a synchronous
re-evaluation pass. -/
def Client.RemoveRequest (c : Client) (rid : Nat) (now : Nat) : Client :=
  if c.isQueued rid then c.pendingErase rid
  else
    match c.findInFlight rid with
    | none => c
    | some request =>
      let c1 := if RequestAttributesAreSet request.attributes kAttributeDelayable
                   = false then
                  { c with last_non_delayable_request_end := some now }
                else c
      let c2 := { c1 with in_flight_requests :=
                    c1.in_flight_requests.filter (fun x => x.rid ≠ rid) }
      let c3 := (c2.SetRequestAttributes request kAttributeNone).1
      c3.LoadAnyStartablePendingRequests now

/-- `Client::ReprioritizeRequest` (lines 488-510): store the new priority on
the handle, recompute its attributes, and if it is still pending re-insert it
at the new key; a re-evaluation pass is scheduled only when the ordinal
priority strictly increased. -/
def Client.ReprioritizeRequest (c : Client) (rid : Nat)
    (old_priority_params new_priority_params : RequestPriorityParams) : Client :=
  let c0 := c.mutateRequest rid (fun x =>
    { x with url_priority := new_priority_params.priority,
             priority := new_priority_params })
  match c0.findRequest rid with
  | none => c0
  | some request =>
    let sr := c0.SetRequestAttributes request (c0.DetermineRequestAttributes request)
    let c1 := sr.1
    if c1.isQueued rid = false then c1
    else
      let c2 := c1.pendingErase rid
      let c3 := c2.pendingInsert sr.2
      if old_priority_params.priority < new_priority_params.priority then
        c3.ScheduleLoadAnyStartablePendingRequests
      else c3

/-- The drain loop of `Client::StartAndRemoveAllRequests` (lines 470-477):
start every pending request asynchronously, moving it in flight. -/
def Client.drainLoop (now : Nat) : Nat → Client → Client
  | 0, c => c
  | fuel + 1, c =>
    match c.pending_requests with
    | [] => c
    | r :: _ =>
      let c1 := c.pendingErase r.rid
      Client.drainLoop now fuel (c1.StartRequest r .START_ASYNC now)

/-- `Client::StartAndRemoveAllRequests` (lines 461-486): drain the pending
queue, clear every in-flight request's attributes, clear the in-flight set and
both counters (`ClearInFlightRequests`, lines 665-669), and hand the requests
back as unowned. -/
def Client.StartAndRemoveAllRequests (c : Client) (now : Nat) :
    Client × List Request :=
  let c1 := Client.drainLoop now c.pending_requests.length c
  let unowned_requests :=
    c1.in_flight_requests.map (fun r => { r with attributes := kAttributeNone })
  ({ c1 with in_flight_requests := [],
             in_flight_delayable_count := 0,
             total_layout_blocking_count := 0 },
   unowned_requests)

/-! ## ResourceScheduler (registry, lines 1336-1582) -/

structure SchedulerState where
  enabled : Bool
  client_map : List (Nat × Client)
  /-- rids of `unowned_requests_` -/
  unowned_requests : List Nat
deriving DecidableEq

/-- `ResourceScheduler::MakeClientId` (lines 1573-1577). -/
def MakeClientId (child_id route_id : Nat) : Nat :=
  ((child_id <<< 32).lor route_id) % 18446744073709551616

def SchedulerState.findClient (s : SchedulerState) (client_id : Nat) :
    Option Client :=
  (s.client_map.find? (fun p => p.1 == client_id)).map Prod.snd

def SchedulerState.setClient (s : SchedulerState) (client_id : Nat) (c : Client) :
    SchedulerState :=
  { s with client_map :=
      s.client_map.map (fun p => if p.1 = client_id then (client_id, c) else p) }

/-- `ResourceScheduler::ScheduleRequest` (lines 1355-1385).  `r0` carries the
fields read off the `net::URLRequest`; the constructed handle
(`ScheduledResourceRequestImpl` constructor, lines 231-249) takes its priority
params from the URL request's priority with intra-priority 0, starts with no
attributes, fifo ordering 0, and is neither ready nor deferred.  If no client
is registered under the id, the request is recorded unowned and started
synchronously; otherwise it is handed to the client. -/
def ResourceScheduler.ScheduleRequest (s : SchedulerState)
    (child_id route_id : Nat) (is_async : Bool) (r0 : Request) (now : Nat) :
    SchedulerState × Request :=
  let client_id := MakeClientId child_id route_id
  let request := { r0 with
    client_id := client_id, is_async := is_async,
    priority := ⟨r0.url_priority, 0⟩, attributes := kAttributeNone,
    fifo_ordering := 0, ready := false, deferred := false,
    creation_time := now }
  match s.findClient client_id with
  | none =>
    let e := request.start .START_SYNC
    ({ s with unowned_requests := request.rid :: s.unowned_requests }, e.request)
  | some client =>
    (s.setClient client_id (client.ScheduleRequest request now), request)

/-- `ResourceScheduler::ReprioritizeRequest` (lines 1522-1560).  `is_tracked`
models `ScheduledResourceRequestImpl::ForRequest(request) != nullptr` (false
for downloads).  Returns the updated scheduler state and the request as seen
through the URL-request pointer afterwards. -/
def ResourceScheduler.ReprioritizeRequest (s : SchedulerState) (r : Request)
    (is_tracked : Bool) (new_priority : Nat) (new_intra_priority_value : Int) :
    SchedulerState × Request :=
  if r.load_ignore_limits then (s, r)
  else if is_tracked = false then (s, { r with url_priority := new_priority })
  else
    let new_priority_params : RequestPriorityParams :=
      ⟨new_priority, new_intra_priority_value⟩
    let old_priority_params := r.priority
    if old_priority_params = new_priority_params then (s, r)
    else
      match s.findClient r.client_id with
      | none =>
        (s, { r with url_priority := new_priority,
                     priority := new_priority_params })
      | some client =>
        let client1 := client.ReprioritizeRequest r.rid old_priority_params
                         new_priority_params
        (s.setClient r.client_id client1,
         (client1.findRequest r.rid).getD
           { r with url_priority := new_priority, priority := new_priority_params })

/-! ## Concrete fixtures

A renderer client with the out-of-the-box parameter set (global delayable cap
10 per the algorithm comment at lines 1024-1025, per-host cap 6 from
`kMaxNumDelayableRequestsPerHostPerClient`, multiplexed-delay mode off, 15 s
max queuing time, no proactive throttling), and request templates used by the
concrete scenarios. -/

def defaultParams : ParamsForNetworkQuality where
  max_delayable_requests := 10
  non_delayable_weight := 0
  delay_requests_on_multiplexed_connections := false
  max_queuing_time := some 15000
  http_rtt_multiplier_for_proactive_throttling := none

def emptyRendererClient : Client where
  is_browser_client := false
  pending_requests := []
  fifo_ordering_ids := 0
  in_flight_requests := []
  in_flight_delayable_count := 0
  total_layout_blocking_count := 0
  num_skipped_scans_due_to_scheduled_start := 0
  outstanding_scan_tasks := 0
  params_for_network_quality := defaultParams
  last_non_delayable_request_start := none
  last_non_delayable_request_end := none
  effective_connection_type := EFFECTIVE_CONNECTION_TYPE_UNKNOWN
  p2p_connections_count := 0
  p2p_connections_count_active_timestamp := none
  p2p_connections_count_end_timestamp := none
  scheduler_enabled := true
  feature_pause_browser_heavy_p2p := false
  time_to_pause_after_p2p_end := 0
  max_wait_time_p2p_connections := none
  http_rtt := none

/-- An asynchronous HTTP request to the non-multiplexing host `1`
(`a.test`). -/
def mkRequest (rid : Nat) (prio : Nat) : Request where
  rid := rid
  client_id := 0
  url_priority := prio
  priority := ⟨prio, 0⟩
  attributes := kAttributeNone
  fifo_ordering := 0
  host := 1
  is_async := true
  url_is_http := true
  supports_priority := false
  creation_time := 100
  load_ignore_limits := false
  can_throttle_traffic_tag := false
  status_success := true
  ready := false
  deferred := false

/-- Submit requests `mkRequest 1 prio` … `mkRequest n prio` in order at tick
100, starting from client `c`. -/
def submitMany (c : Client) (prio : Nat) (n : Nat) : Client :=
  (List.range n).foldl (fun acc i => acc.ScheduleRequest (mkRequest (i + 1) prio) 100) c

/-! ## Statement-side predicates -/

/-- The `Delayable` condition exactly as claim C1 words it: priority below the
threshold, and the multiplexed-connection delay mode is OFF or the host is not
known to support request priorities.  (Compare with
`Client.DetermineRequestAttributes`, which uses the opposite polarity of the
mode flag.) -/
def claimedDelayableCondition (c : Client) (r : Request) : Prop :=
  r.url_priority < kDelayablePriorityThreshold ∧
  (c.params_for_network_quality.delay_requests_on_multiplexed_connections = false ∨
   r.supports_priority = false)

/-- The weighted non-delayable in-flight term of the global delayable cap
(lines 1085-1087). -/
def Client.weightedNonDelayable (c : Client) : Nat :=
  weightedCount c.params_for_network_quality.non_delayable_weight
    (c.in_flight_requests.length - c.in_flight_delayable_count)

/-- The global delayable cap condition (lines 1088-1089). -/
abbrev Client.globalDelayableCapReached (c : Client) : Prop :=
  c.params_for_network_quality.max_delayable_requests ≤
    c.in_flight_delayable_count + c.weightedNonDelayable

/-- The hypotheses under which `ShouldStartRequest` reaches the
delayable-request section (lines 1083 onward): a renderer client with the
scheduler enabled, an asynchronous HTTP(S) request that has not been queued
past `max_queuing_time`, is not exempted by native priority support, and
carries the `Delayable` attribute. -/
def ReachesDelayableSection (c : Client) (r : Request) (now : Nat) : Prop :=
  c.scheduler_enabled = true ∧
  c.is_browser_client = false ∧
  r.is_async = true ∧
  r.url_is_http = true ∧
  c.exceededMaxQueuingTime r now = false ∧
  ¬(c.params_for_network_quality.delay_requests_on_multiplexed_connections = false ∧
    r.supports_priority = true) ∧
  RequestAttributesAreSet r.attributes kAttributeDelayable = true

/-- Refresh of the externally supplied signals
(`OnEffectiveConnectionTypeChanged` lines 563-575,
`OnPeerToPeerConnectionsCountChange` lines 578-611,
`UpdateParamsForNetworkQuality` lines 513-522): new params table entry,
effective connection type, P2P connection count and timestamps, and RTT
estimate.  The registered observers follow such a refresh with
`LoadAnyStartablePendingRequests`. -/
def Client.applyNetworkSignals (c : Client) (p : ParamsForNetworkQuality)
    (ect p2p : Nat) (ats ets rtt : Option Nat) : Client :=
  { c with params_for_network_quality := p
           effective_connection_type := ect
           p2p_connections_count := p2p
           p2p_connections_count_active_timestamp := ats
           p2p_connections_count_end_timestamp := ets
           http_rtt := rtt }

/-- No element of `l` has pointer identity `rid`. -/
def ridNotIn (rid : Nat) (l : List Request) : Prop :=
  ∀ x ∈ l, x.rid ≠ rid

/-- Number of tracked requests (in flight or pending) whose attributes include
all bits of `m`. -/
def attrCountTracked (c : Client) (m : RequestAttributes) : Nat :=
  ((c.in_flight_requests ++ c.pending_requests).filter
    (fun r => RequestAttributesAreSet r.attributes m)).length

/-- Number of requests in one list whose attributes include all bits of
`m` (one summand of `attrCountTracked`). -/
def cntAttr (l : List Request) (m : RequestAttributes) : Nat :=
  (l.filter (fun r => RequestAttributesAreSet r.attributes m)).length

/-- Claim C10's invariant: the two cached counters agree with recounting the
tracked requests by attribute. -/
def CountersConsistent (c : Client) : Prop :=
  c.in_flight_delayable_count =
    attrCountTracked c (kAttributeInFlight.lor kAttributeDelayable) ∧
  c.total_layout_blocking_count = attrCountTracked c kAttributeLayoutBlocking

/-- Structural well-formedness of a client, preserved by every operation:
pending handles carry no `InFlight` bit (and, in this file, no
`LayoutBlocking` bit, since nothing in `resource_scheduler.cc` ever sets it on
a fresh handle); in-flight handles carry the `InFlight` bit; rids (pointers)
are pairwise distinct; and the cached counters recount correctly. -/
def ClientWF (c : Client) : Prop :=
  CountersConsistent c ∧
  (∀ r ∈ c.pending_requests,
     r.attributes = kAttributeNone ∨ r.attributes = kAttributeDelayable) ∧
  (∀ r ∈ c.in_flight_requests,
     r.attributes = kAttributeInFlight ∨
     r.attributes = kAttributeInFlight.lor kAttributeDelayable) ∧
  ((c.pending_requests ++ c.in_flight_requests).map (fun r => r.rid)).Nodup

/-- A freshly constructed client (`Client` constructor, lines 398-418): no
requests, zero counters, no pending scan. -/
def ClientInitial (c : Client) : Prop :=
  c.pending_requests = [] ∧
  c.in_flight_requests = [] ∧
  c.in_flight_delayable_count = 0 ∧
  c.total_layout_blocking_count = 0 ∧
  c.num_skipped_scans_due_to_scheduled_start = 0 ∧
  c.outstanding_scan_tasks = 0

/-- One client operation as invocable through the scheduler: submission of a
fresh handle (the `ScheduledResourceRequestImpl` constructor zeroes its
attributes, and a new object's pointer differs from every live one), removal,
re-prioritization, a direct or posted re-evaluation pass, teardown drain, and
an external network-quality / P2P signal (parameter refresh followed by a
pass). -/
inductive ClientStep : Client → Client → Prop
  | schedule (c : Client) (r : Request) (now : Nat)
      (hattrs : r.attributes = kAttributeNone)
      (hfresh : c.findRequest r.rid = none) :
      ClientStep c (c.ScheduleRequest r now)
  | remove (c : Client) (rid now : Nat) :
      ClientStep c (c.RemoveRequest rid now)
  | reprioritize (c : Client) (rid : Nat)
      (old_priority_params new_priority_params : RequestPriorityParams) :
      ClientStep c (c.ReprioritizeRequest rid old_priority_params new_priority_params)
  | scan (c : Client) (now : Nat) :
      ClientStep c (c.LoadAnyStartablePendingRequests now)
  | runPosted (c : Client) (now : Nat) :
      ClientStep c (c.RunPostedScan now)
  | drain (c : Client) (now : Nat) :
      ClientStep c (c.StartAndRemoveAllRequests now).1
  | envChange (c : Client) (p : ParamsForNetworkQuality) (ect p2p : Nat)
      (ats ets rtt : Option Nat) (now : Nat) :
      ClientStep c ((c.applyNetworkSignals p ect p2p ats ets rtt).LoadAnyStartablePendingRequests now)

/-- States reachable by client operations from a fresh client. -/
inductive ClientReachable : Client → Prop
  | init (c : Client) (h : ClientInitial c) : ClientReachable c
  | step (c c2 : Client) (h : ClientReachable c) (hs : ClientStep c c2) :
      ClientReachable c2

/-! ## Scenario fixtures for the individual claims -/

/-- A low-priority request to a host known to support request priorities. -/
def supportingHostRequest : Request := { mkRequest 1 LOW with supports_priority := true }

/-- Default parameters with the global delayable cap lowered to 6, so that the
global cap and the per-host cap (also 6) can hold simultaneously. -/
def cap6Client : Client :=
  { emptyRendererClient with params_for_network_quality :=
      { defaultParams with max_delayable_requests := 6 } }

def c2Client : Client := submitMany cap6Client LOW 6

/-- The 7th delayable request to the same host, with the `Delayable` attribute
`DetermineRequestAttributes` assigns it on submission. -/
def c2Request : Request := { mkRequest 7 LOW with attributes := kAttributeDelayable }

/-- A renderer client with one layout-blocking and one delayable request in
flight.  `resource_scheduler.cc` itself never sets `kAttributeLayoutBlocking`
on a fresh handle (the marking happened in callers that are not part of this
file; `DetermineRequestAttributes` lines 741-745 only carries the bit over),
so the in-flight layout-blocking handle is taken as given here. -/
def layoutBlockingClient : Client :=
  { emptyRendererClient with
      in_flight_requests :=
        [ { mkRequest 100 HIGHEST with
              attributes := kAttributeInFlight.lor kAttributeLayoutBlocking },
          { mkRequest 101 LOW with
              attributes := kAttributeInFlight.lor kAttributeDelayable } ],
      in_flight_delayable_count := 1,
      total_layout_blocking_count := 1 }

/-- A synchronous low-priority request carrying the `Delayable` attribute
(`DetermineRequestAttributes` does not consult `is_async`). -/
def syncDelayableRequest : Request :=
  { mkRequest 102 LOW with is_async := false, attributes := kAttributeDelayable }

/-- Parameters that admit exactly one delayable request at a time
(global cap 1, weight 1). -/
def capacityOneClient : Client :=
  { emptyRendererClient with params_for_network_quality :=
      { defaultParams with max_delayable_requests := 1, non_delayable_weight := 1 } }

def c5Step0 : Client := capacityOneClient.ScheduleRequest (mkRequest 1 MEDIUM) 100
def c5Step1 : Client := c5Step0.ScheduleRequest (mkRequest 2 LOW) 100
def c5Step2 : Client := c5Step1.ScheduleRequest (mkRequest 3 LOW) 100
def c5Step3 : Client := c5Step2.RemoveRequest 1 200
def c5Step4 : Client := c5Step3.RemoveRequest 2 300

/-- A client with a single delayable request in flight. -/
def c6Client : Client := submitMany emptyRendererClient LOW 1

def emptyScheduler : SchedulerState :=
  { enabled := true, client_map := [], unowned_requests := [] }

/-- A maximum-priority request carrying the `LOAD_IGNORE_LIMITS` flag. -/
def ignoreLimitsRequest : Request :=
  { mkRequest 50 HIGHEST with load_ignore_limits := true }

/-- A client whose global delayable cap is 0, so delayable requests stay
pending forever (used to drive re-evaluation triggers). -/
def c9Start : Client :=
  { emptyRendererClient with params_for_network_quality :=
      { defaultParams with max_delayable_requests := 0 } }

def c9Step1 : Client := c9Start.ScheduleRequest (mkRequest 1 MEDIUM) 100
def c9Step2 : Client := c9Step1.ScheduleRequest (mkRequest 2 LOW) 100
def c9Step3 : Client := c9Step2.ScheduleRequest (mkRequest 3 LOW) 100
/-- Promoting pending request 3 posts a re-evaluation task. -/
def c9Step4 : Client := c9Step3.ReprioritizeRequest 3 ⟨LOW, 0⟩ ⟨MEDIUM, 0⟩
/-- Removing in-flight request 1 runs a re-evaluation pass synchronously,
resetting the skipped-scans counter while the posted task is still queued. -/
def c9Step5 : Client := c9Step4.RemoveRequest 1 200
/-- Promoting pending request 2 posts a second task. -/
def c9Step6 : Client := c9Step5.ReprioritizeRequest 2 ⟨LOW, 0⟩ ⟨MEDIUM, 0⟩

/-- An asynchronous delayable request evaluated against
`layoutBlockingClient`. -/
def c4WitnessRequest : Request :=
  { mkRequest 103 LOW with attributes := kAttributeDelayable }

/-!
# Theorems

Each claim of the specification is settled below; helper lemmas carry no claim
name.
-/

/-- Claim C1, counterexample.  The claim words the `Delayable` condition as
"priority below the threshold AND (multiplexed-connection delay mode is OFF or
the host does not support priorities)".  With the delay mode off and a
priority-supporting host, the claimed condition holds for a LOW-priority
request (its handle not marked layout-blocking), yet
`DetermineRequestAttributes` does not set `Delayable`: when the mode is off the
code sets `Delayable` only for hosts that do NOT support priorities
(lines 753-765), so the claim's mode polarity is inverted. -/
theorem C1_counterexample :
    claimedDelayableCondition emptyRendererClient supportingHostRequest ∧
    RequestAttributesAreSet supportingHostRequest.attributes
      kAttributeLayoutBlocking = false ∧
    RequestAttributesAreSet
      (emptyRendererClient.DetermineRequestAttributes supportingHostRequest)
      kAttributeDelayable = false :=
  ⟨⟨by decide, Or.inl (by decide)⟩, by decide, by decide⟩

/-- Claim C1, amended.  For every request whose handle is not already marked
layout-blocking, the `Delayable` attribute computed by
`DetermineRequestAttributes` (used both on submission and on
re-prioritization) is set iff the priority is below the fixed delayable
threshold and, in addition, either the multiplexed-connection delay mode is ON
or the target host is not known to support request multiplexing/priority
natively. -/
theorem C1_delayable_characterization (c : Client) (r : Request)
    (h : RequestAttributesAreSet r.attributes kAttributeLayoutBlocking = false) :
    RequestAttributesAreSet (c.DetermineRequestAttributes r)
        kAttributeDelayable = true ↔
      (r.url_priority < kDelayablePriorityThreshold ∧
       (c.params_for_network_quality.delay_requests_on_multiplexed_connections
          = true ∨
        r.supports_priority = false)) := by
  unfold Client.DetermineRequestAttributes
  cases hin : c.inFlightContains r.rid <;>
  cases hm : c.params_for_network_quality.delay_requests_on_multiplexed_connections <;>
  by_cases hp : r.url_priority < kDelayablePriorityThreshold <;>
  cases hs : r.supports_priority <;>
  simp [h, hin, hm, hp, hs] <;> decide

/-- Claim C1, witness for `C1_delayable_characterization` at a concrete
input. -/
theorem C1_witness :
    RequestAttributesAreSet (mkRequest 1 LOW).attributes
      kAttributeLayoutBlocking = false ∧
    (RequestAttributesAreSet
        (emptyRendererClient.DetermineRequestAttributes (mkRequest 1 LOW))
        kAttributeDelayable = true ↔
      ((mkRequest 1 LOW).url_priority < kDelayablePriorityThreshold ∧
       (emptyRendererClient.params_for_network_quality.delay_requests_on_multiplexed_connections
          = true ∨
        (mkRequest 1 LOW).supports_priority = false))) :=
  ⟨by decide,
   C1_delayable_characterization emptyRendererClient (mkRequest 1 LOW) (by decide)⟩

/-- Claim C2, counterexample.  A renderer client with six delayable in-flight
requests to host 1 under a global delayable cap of 6: for a seventh delayable
request to the same host both the per-host cap and the global delayable cap
hold, and `ShouldStartRequest` stops the whole scan — the code checks the
global cap (lines 1088-1091) before the per-host cap (lines 1093-1097), so the
claimed defer-and-keep-scanning outcome does not occur. -/
theorem C2_counterexample :
    c2Client.globalDelayableCapReached ∧
    c2Client.ReachedMaxRequestsPerHostPerClient c2Request.host
      c2Request.supports_priority = true ∧
    c2Client.ShouldStartRequest c2Request 100 =
      .DO_NOT_START_REQUEST_AND_STOP_SEARCHING :=
  ⟨by decide, by decide, by decide⟩

/-- Claim C2, amended.  In the admission decision for a delayable request of a
renderer client, the global delayable cap rule is evaluated BEFORE the
per-host cap rule, and the first matching rule wins: if the global cap holds
the scan stops (regardless of the per-host cap); only if the global cap does
not hold and the per-host cap does is the request deferred with the scan kept
going. -/
theorem C2_cap_order (c : Client) (r : Request) (now : Nat)
    (h : ReachesDelayableSection c r now) :
    (c.globalDelayableCapReached →
       c.ShouldStartRequest r now = .DO_NOT_START_REQUEST_AND_STOP_SEARCHING) ∧
    (¬ c.globalDelayableCapReached →
       c.ReachedMaxRequestsPerHostPerClient r.host r.supports_priority = true →
       c.ShouldStartRequest r now = .DO_NOT_START_REQUEST_AND_KEEP_SEARCHING) := by
  obtain ⟨he, hb, ha, hh, hq, hs, hd⟩ := h
  constructor
  · intro hg
    unfold Client.globalDelayableCapReached Client.weightedNonDelayable at hg
    unfold Client.ShouldStartRequest
    simp only [he, hb, ha, hh, hq, hd]
    split_ifs with h1 h2 h3 <;> first | rfl | simp_all
  · intro hg hhost
    unfold Client.globalDelayableCapReached Client.weightedNonDelayable at hg
    unfold Client.ShouldStartRequest
    simp only [he, hb, ha, hh, hq, hd]
    split_ifs with h1 h2 h3 <;> first | rfl | simp_all

/-- Claim C2, witness for `C2_cap_order` at a concrete input where both caps
hold. -/
theorem C2_witness :
    (c2Client.globalDelayableCapReached →
       c2Client.ShouldStartRequest c2Request 100 =
         .DO_NOT_START_REQUEST_AND_STOP_SEARCHING) ∧
    (¬ c2Client.globalDelayableCapReached →
       c2Client.ReachedMaxRequestsPerHostPerClient c2Request.host
         c2Request.supports_priority = true →
       c2Client.ShouldStartRequest c2Request 100 =
         .DO_NOT_START_REQUEST_AND_KEEP_SEARCHING) :=
  C2_cap_order c2Client c2Request 100
    ⟨by decide, by decide, by decide, by decide, by decide, by decide, by decide⟩

/-- Claim C3, counterexample.  Eight MEDIUM-priority requests to one
non-multiplexing host on a default-parameter renderer client are ALL admitted
immediately: MEDIUM is not below the delayable threshold
(`kDelayablePriorityThreshold = net::MEDIUM`, strict `<` at line 746), so
these requests are non-delayable and rule "not Delayable: admit" applies —
the claimed outcome (6 admitted, 2 pending) does not occur. -/
theorem C3_counterexample :
    ((submitMany emptyRendererClient MEDIUM 8).in_flight_requests.map
        (fun r => r.rid) = [1, 2, 3, 4, 5, 6, 7, 8]) ∧
    (submitMany emptyRendererClient MEDIUM 8).pending_requests = [] := by
  constructor <;> rfl

/-- Claim C3, amended.  The claimed end-to-end scenario holds for requests
whose priority is strictly below MEDIUM (e.g. LOW): submitting 8 LOW-priority
delayable requests to one non-multiplexing host admits exactly the first 6,
leaves 7 and 8 pending, and after one in-flight request is removed exactly one
pending request — the earlier-submitted request 7, by FIFO tie-break —
transitions to in-flight. -/
theorem C3_scenario :
    ((submitMany emptyRendererClient LOW 8).in_flight_requests.map
        (fun r => r.rid) = [1, 2, 3, 4, 5, 6]) ∧
    ((submitMany emptyRendererClient LOW 8).pending_requests.map
        (fun r => r.rid) = [7, 8]) ∧
    (((submitMany emptyRendererClient LOW 8).RemoveRequest 1 200).in_flight_requests.map
        (fun r => r.rid) = [2, 3, 4, 5, 6, 7]) ∧
    (((submitMany emptyRendererClient LOW 8).RemoveRequest 1 200).pending_requests.map
        (fun r => r.rid) = [8]) := by
  refine ⟨?_, ?_, ?_, ?_⟩ <;> decide

/-- Claim C4, counterexample.  With one layout-blocking and one delayable
request in flight (delayable count 1), a synchronous request carrying the
`Delayable` attribute is still admitted (`ShouldStartRequest` returns
`START_REQUEST` for any non-async request at lines 1045-1046 before the
layout-blocking guard is reached), so a delayable request CAN be admitted in
such a state and the claimed "never admitted, stops the scan" fails. -/
theorem C4_counterexample :
    layoutBlockingClient.total_layout_blocking_count ≠ 0 ∧
    layoutBlockingClient.in_flight_requests ≠ [] ∧
    1 ≤ layoutBlockingClient.in_flight_delayable_count ∧
    RequestAttributesAreSet syncDelayableRequest.attributes
      kAttributeDelayable = true ∧
    layoutBlockingClient.ShouldStartRequest syncDelayableRequest 100 =
      .START_REQUEST :=
  ⟨by decide, by decide, by decide, by decide, by decide⟩

/-- Claim C4, amended.  While the layout-blocking count is non-zero and some
request is in flight, a delayable request that actually reaches the
layout-blocking guard — i.e. none of the admit-immediately exemptions
(synchronous, non-HTTP(S), queued past `max_queuing_time`,
priority-supporting host with delay mode off) applies, the global delayable
cap is not reached and the per-host cap is not hit — is not admitted when the
in-flight delayable count is already at least 1, and the outcome stops the
scan. -/
theorem C4_layout_blocking_guard (c : Client) (r : Request) (now : Nat)
    (h : ReachesDelayableSection c r now)
    (hglobal : ¬ c.globalDelayableCapReached)
    (hhost : c.ReachedMaxRequestsPerHostPerClient r.host
      r.supports_priority = false)
    (hlb : c.total_layout_blocking_count ≠ 0)
    (hinfl : c.in_flight_requests ≠ [])
    (hdc : 1 ≤ c.in_flight_delayable_count) :
    c.ShouldStartRequest r now = .DO_NOT_START_REQUEST_AND_STOP_SEARCHING := by
  obtain ⟨he, hb, ha, hh, hq, hs, hd⟩ := h
  unfold Client.globalDelayableCapReached Client.weightedNonDelayable at hglobal
  have hlen : 0 < c.in_flight_requests.length := List.length_pos.mpr hinfl
  unfold Client.ShouldStartRequest
  simp only [he, hb, ha, hh, hq, hd, hhost,
    kMaxNumDelayableWhileLayoutBlockingPerClient,
    kInFlightNonDelayableRequestCountPerClientThreshold]
  split_ifs with h1 h2 h3 <;> first | rfl | simp_all

/-- Claim C4, witness for `C4_layout_blocking_guard` at a concrete input. -/
theorem C4_witness :
    layoutBlockingClient.ShouldStartRequest c4WitnessRequest 100 =
      .DO_NOT_START_REQUEST_AND_STOP_SEARCHING :=
  C4_layout_blocking_guard layoutBlockingClient c4WitnessRequest 100
    ⟨by decide, by decide, by decide, by decide, by decide, by decide, by decide⟩
    (by decide) (by decide) (by decide) (by decide) (by decide)

/-- Claim C5, confirmed.  `ScheduledResourceSorter` orders by priority
descending, then intra-priority descending, then fifo ordering ascending
(older first); and in a concrete capacity-one scenario two pending requests
with identical priority and intra-priority (requests 2 and 3) are admitted in
submission order: request 2 enters flight on the first capacity release,
request 3 only on the second. -/
theorem C5_queue_order :
    (∀ a b : Request, ScheduledResourceSorter a b = true ↔
      (b.priority.priority < a.priority.priority ∨
       (a.priority.priority = b.priority.priority ∧
        b.priority.intra_priority < a.priority.intra_priority) ∨
       (a.priority = b.priority ∧ a.fifo_ordering < b.fifo_ordering))) ∧
    (c5Step2.in_flight_requests.map (fun r => r.rid) = [1] ∧
     c5Step2.pending_requests.map (fun r => r.rid) = [2, 3] ∧
     c5Step3.in_flight_requests.map (fun r => r.rid) = [2] ∧
     c5Step3.pending_requests.map (fun r => r.rid) = [3] ∧
     c5Step4.in_flight_requests.map (fun r => r.rid) = [3]) := by
  refine ⟨?_, by decide, by decide, by decide, by decide, by decide⟩
  intro a b
  unfold ScheduledResourceSorter RequestPriorityParams.GreaterThan
  by_cases hpq : a.priority = b.priority
  · simp [hpq]
  · by_cases hpp : a.priority.priority = b.priority.priority
    · simp [hpq, hpp]
    · simp [hpq, hpp]

/-- Claim C7, counterexample.  For a request carrying the ignore-limits
(`LOAD_IGNORE_LIMITS`) flag, `ResourceScheduler::ReprioritizeRequest` returns
immediately without touching the request (lines 1525-1528: such requests must
stay at `MAXIMUM_PRIORITY`): re-prioritizing it to LOW leaves its priority at
HIGHEST, so the claimed "applies the new priority to the request directly"
does not happen. -/
theorem C7_counterexample :
    ignoreLimitsRequest.load_ignore_limits = true ∧
    ignoreLimitsRequest.url_priority = HIGHEST ∧
    HIGHEST ≠ LOW ∧
    (ResourceScheduler.ReprioritizeRequest emptyScheduler ignoreLimitsRequest
      true LOW 0).2 = ignoreLimitsRequest ∧
    (ResourceScheduler.ReprioritizeRequest emptyScheduler ignoreLimitsRequest
      true LOW 0).1 = emptyScheduler :=
  ⟨by decide, by decide, by decide, by decide, by decide⟩

/-- Claim C7, amended.  For every request carrying the "never throttle"
(ignore-limits) load flag, the scheduler-level re-prioritization operation is
a complete no-op: it bypasses the per-client scheduling logic AND leaves the
request's priority unchanged (such requests must stay at maximum priority). -/
theorem C7_ignore_limits_noop (s : SchedulerState) (r : Request)
    (is_tracked : Bool) (new_priority : Nat) (new_intra_priority_value : Int)
    (h : r.load_ignore_limits = true) :
    ResourceScheduler.ReprioritizeRequest s r is_tracked new_priority
      new_intra_priority_value = (s, r) := by
  unfold ResourceScheduler.ReprioritizeRequest
  rw [h]
  simp

/-- Claim C7, witness for `C7_ignore_limits_noop` at a concrete input. -/
theorem C7_witness :
    ResourceScheduler.ReprioritizeRequest emptyScheduler ignoreLimitsRequest
      true LOW 0 = (emptyScheduler, ignoreLimitsRequest) :=
  C7_ignore_limits_noop emptyScheduler ignoreLimitsRequest true LOW 0 (by decide)

/-- Claim C8, confirmed.  Submitting a (live) request under a ClientId with no
registered client does not fail: the request is recorded in the unowned set,
its `Start(START_SYNC)` runs synchronously (the returned handle is `ready`,
not deferred), no gating (`ShouldStartRequest`) is consulted, and the client
map is untouched. -/
theorem C8_unowned_start (s : SchedulerState) (child_id route_id : Nat)
    (is_async : Bool) (r0 : Request) (now : Nat)
    (habsent : s.findClient (MakeClientId child_id route_id) = none)
    (hstatus : r0.status_success = true) :
    ((ResourceScheduler.ScheduleRequest s child_id route_id is_async r0 now).2.rid ∈
      (ResourceScheduler.ScheduleRequest s child_id route_id is_async r0 now).1.unowned_requests) ∧
    (ResourceScheduler.ScheduleRequest s child_id route_id is_async r0 now).2.ready = true ∧
    (ResourceScheduler.ScheduleRequest s child_id route_id is_async r0 now).2.deferred = false ∧
    (ResourceScheduler.ScheduleRequest s child_id route_id is_async r0 now).1.client_map
      = s.client_map := by
  unfold ResourceScheduler.ScheduleRequest
  simp only [habsent]
  simp [Request.start, hstatus]

/-- Claim C8, witness for `C8_unowned_start` at a concrete input. -/
theorem C8_witness :
    ((ResourceScheduler.ScheduleRequest emptyScheduler 5 7 true (mkRequest 1 LOW) 100).2.rid ∈
      (ResourceScheduler.ScheduleRequest emptyScheduler 5 7 true (mkRequest 1 LOW) 100).1.unowned_requests) ∧
    (ResourceScheduler.ScheduleRequest emptyScheduler 5 7 true (mkRequest 1 LOW) 100).2.ready = true ∧
    (ResourceScheduler.ScheduleRequest emptyScheduler 5 7 true (mkRequest 1 LOW) 100).2.deferred = false ∧
    (ResourceScheduler.ScheduleRequest emptyScheduler 5 7 true (mkRequest 1 LOW) 100).1.client_map
      = emptyScheduler.client_map :=
  C8_unowned_start emptyScheduler 5 7 true (mkRequest 1 LOW) 100 (by decide)
    (by decide)

/-! Helper lemmas for the coalescing claim: none of the bookkeeping inside a
re-evaluation pass touches the skipped-scans counter after the pass resets
it. -/

theorem setRequestAttributes_skipped (c : Client) (r : Request)
    (a : RequestAttributes) :
    (c.SetRequestAttributes r a).1.num_skipped_scans_due_to_scheduled_start =
      c.num_skipped_scans_due_to_scheduled_start := by
  unfold Client.SetRequestAttributes Client.mutateRequest
  split <;> rfl

theorem startRequest_skipped (c : Client) (r : Request) (mode : StartMode)
    (now : Nat) :
    (c.StartRequest r mode now).num_skipped_scans_due_to_scheduled_start =
      c.num_skipped_scans_due_to_scheduled_start := by
  unfold Client.StartRequest Client.mutateRequest
  split_ifs <;> simp [setRequestAttributes_skipped]

theorem loadLoop_skipped (now : Nat) :
    ∀ (fuel : Nat) (c : Client) (l : List Request),
      (Client.loadLoop now fuel c l).num_skipped_scans_due_to_scheduled_start =
        c.num_skipped_scans_due_to_scheduled_start := by
  intro fuel
  induction fuel with
  | zero => intro c l; rfl
  | succ n ih =>
    intro c l
    cases l with
    | nil => rfl
    | cons r rest =>
      unfold Client.loadLoop
      cases h : c.ShouldStartRequest r now <;>
        simp [h, ih, startRequest_skipped, Client.pendingErase]

theorem loadAny_skipped (c : Client) (now : Nat) :
    (c.LoadAnyStartablePendingRequests now).num_skipped_scans_due_to_scheduled_start
      = 0 := by
  unfold Client.LoadAnyStartablePendingRequests
  simp [loadLoop_skipped]

theorem scheduleLoad_outstanding (c : Client) :
    (c.ScheduleLoadAnyStartablePendingRequests).outstanding_scan_tasks =
      if c.num_skipped_scans_due_to_scheduled_start = 0 then
        c.outstanding_scan_tasks + 1
      else c.outstanding_scan_tasks := rfl

theorem scheduleLoad_skipped (c : Client) :
    (c.ScheduleLoadAnyStartablePendingRequests).num_skipped_scans_due_to_scheduled_start
      = c.num_skipped_scans_due_to_scheduled_start + 1 := rfl

theorem schedule_iterate (c : Client)
    (h0 : c.num_skipped_scans_due_to_scheduled_start = 0) :
    ∀ N : Nat, 1 ≤ N →
      ((Client.ScheduleLoadAnyStartablePendingRequests)^[N] c).outstanding_scan_tasks
        = c.outstanding_scan_tasks + 1 ∧
      ((Client.ScheduleLoadAnyStartablePendingRequests)^[N] c).num_skipped_scans_due_to_scheduled_start
        = N := by
  intro N
  induction N with
  | zero => intro h; exact absurd h (by omega)
  | succ n ih =>
    intro _
    rw [Function.iterate_succ_apply']
    rcases Nat.eq_zero_or_pos n with hn | hn
    · subst hn
      simp only [Function.iterate_zero_apply]
      rw [scheduleLoad_outstanding, scheduleLoad_skipped, h0, if_pos rfl]
      exact ⟨rfl, rfl⟩
    · obtain ⟨ho, hsk⟩ := ih hn
      rw [scheduleLoad_outstanding, scheduleLoad_skipped, hsk, ho,
        if_neg (by omega)]
      exact ⟨rfl, rfl⟩

/-! Helper lemmas for the re-prioritization claim: pointer-identity list
manipulations and field-level characterizations of `SetRequestAttributes`. -/

theorem updateReqList_ridNotIn (l : List Request) (rid : Nat)
    (f : Request → Request) (h : ridNotIn rid l) :
    updateReqList l rid f = l := by
  induction l with
  | nil => rfl
  | cons x xs ih =>
    unfold updateReqList
    rw [List.map_cons]
    have hx : x.rid ≠ rid := h x (List.mem_cons_self x xs)
    rw [if_neg hx]
    have h2 : updateReqList xs rid f = xs :=
      ih (fun y hy => h y (List.mem_cons_of_mem x hy))
    unfold updateReqList at h2
    rw [h2]

theorem find_updateReqList (l : List Request) (rid : Nat)
    (f : Request → Request) (hpres : ∀ x, (f x).rid = x.rid) :
    (updateReqList l rid f).find? (fun x => x.rid == rid) =
      (l.find? (fun x => x.rid == rid)).map
        (fun x => if x.rid = rid then f x else x) := by
  induction l with
  | nil => rfl
  | cons x xs ih =>
    unfold updateReqList
    rw [List.map_cons]
    by_cases hx : x.rid = rid
    · rw [if_pos hx]
      simp only [List.find?, hpres x, hx, beq_self_eq_true, Option.map_some]
      simp [hx]
    · rw [if_neg hx]
      have hb : (x.rid == rid) = false := by simp [hx]
      simp only [List.find?, hb]
      unfold updateReqList at ih
      rw [ih]

theorem any_updateReqList (l : List Request) (rid : Nat)
    (f : Request → Request) (hpres : ∀ x, (f x).rid = x.rid) :
    (updateReqList l rid f).any (fun x => x.rid == rid) =
      l.any (fun x => x.rid == rid) := by
  induction l with
  | nil => rfl
  | cons x xs ih =>
    unfold updateReqList
    rw [List.map_cons, List.any_cons, List.any_cons]
    by_cases hx : x.rid = rid
    · rw [if_pos hx]
      simp [hpres x, hx]
    · rw [if_neg hx]
      unfold updateReqList at ih
      rw [ih]

theorem ridNotIn_filter (l : List Request) (rid : Nat) :
    ridNotIn rid (l.filter (fun x => x.rid ≠ rid)) := by
  intro x hx
  have := List.of_mem_filter hx
  simpa using this

theorem find_insertSorted_fresh (r : Request) (l : List Request) (rid : Nat)
    (hr : r.rid = rid) (h : ridNotIn rid l) :
    (insertSorted r l).find? (fun x => x.rid == rid) = some r := by
  induction l with
  | nil => simp [insertSorted, List.find?, hr]
  | cons x xs ih =>
    unfold insertSorted
    by_cases hs : ScheduledResourceSorter r x
    · rw [if_pos hs]
      simp [List.find?, hr]
    · rw [if_neg hs]
      have hx : x.rid ≠ rid := h x (List.mem_cons_self x xs)
      have hb : (x.rid == rid) = false := by simp [hx]
      simp only [List.find?, hb]
      exact ih (fun y hy => h y (List.mem_cons_of_mem x hy))




theorem ridNotIn_of_any_false (l : List Request) (rid : Nat)
    (h : l.any (fun x => x.rid == rid) = false) : ridNotIn rid l := by
  intro x hx
  intro hrid
  have hp : l.any (fun y => y.rid == rid) = true :=
    List.any_eq_true.mpr ⟨x, hx, beq_iff_eq.mpr hrid⟩
  rw [h] at hp
  exact Bool.false_ne_true hp

theorem find?_ridNotIn (l : List Request) (rid : Nat) (h : ridNotIn rid l) :
    l.find? (fun x => x.rid == rid) = none := by
  rw [List.find?_eq_none]
  intro x hx
  simp [h x hx]

theorem find?_rid_eq (l : List Request) (rid : Nat) (x : Request)
    (h : l.find? (fun x => x.rid == rid) = some x) : x.rid = rid := by
  have := List.find?_some h
  simpa using this

theorem setRequestAttributes_pending (c : Client) (r : Request)
    (a : RequestAttributes) :
    (c.SetRequestAttributes r a).1.pending_requests =
      if r.attributes = a then c.pending_requests
      else updateReqList c.pending_requests r.rid
        (fun x => { x with attributes := a }) := by
  unfold Client.SetRequestAttributes Client.mutateRequest
  split <;> simp_all

theorem setRequestAttributes_inflight (c : Client) (r : Request)
    (a : RequestAttributes) :
    (c.SetRequestAttributes r a).1.in_flight_requests =
      if r.attributes = a then c.in_flight_requests
      else updateReqList c.in_flight_requests r.rid
        (fun x => { x with attributes := a }) := by
  unfold Client.SetRequestAttributes Client.mutateRequest
  split <;> simp_all

theorem setRequestAttributes_fifo (c : Client) (r : Request)
    (a : RequestAttributes) :
    (c.SetRequestAttributes r a).1.fifo_ordering_ids = c.fifo_ordering_ids := by
  unfold Client.SetRequestAttributes Client.mutateRequest
  split <;> rfl

theorem setRequestAttributes_outstanding (c : Client) (r : Request)
    (a : RequestAttributes) :
    (c.SetRequestAttributes r a).1.outstanding_scan_tasks =
      c.outstanding_scan_tasks := by
  unfold Client.SetRequestAttributes Client.mutateRequest
  split <;> rfl

theorem setRequestAttributes_req (c : Client) (r : Request)
    (a : RequestAttributes) :
    (c.SetRequestAttributes r a).2 = { r with attributes := a } := by
  unfold Client.SetRequestAttributes
  split
  · next h => cases r; simp_all
  · rfl



theorem reprioritize_not_queued (c : Client) (rid : Nat)
    (old_p new_p : RequestPriorityParams)
    (hq : c.isQueued rid = false) :
    (c.ReprioritizeRequest rid old_p new_p).pending_requests =
        c.pending_requests ∧
    (c.ReprioritizeRequest rid old_p new_p).fifo_ordering_ids =
        c.fifo_ordering_ids ∧
    (c.ReprioritizeRequest rid old_p new_p).num_skipped_scans_due_to_scheduled_start =
        c.num_skipped_scans_due_to_scheduled_start ∧
    (c.ReprioritizeRequest rid old_p new_p).outstanding_scan_tasks =
        c.outstanding_scan_tasks ∧
    ((c.ReprioritizeRequest rid old_p new_p).findInFlight rid).map
        (fun x => x.priority) =
      (c.findInFlight rid).map (fun _ => new_p) := by
  have hpn : ridNotIn rid c.pending_requests :=
    ridNotIn_of_any_false _ _ (by simpa [Client.isQueued] using hq)
  unfold Client.ReprioritizeRequest
  dsimp only
  set f1 : Request → Request := fun x =>
    { x with url_priority := new_p.priority, priority := new_p } with hf1
  have hf1r : ∀ x, (f1 x).rid = x.rid := fun x => rfl
  set c0 := c.mutateRequest rid f1 with hc0
  have hc0p : c0.pending_requests = c.pending_requests := by
    rw [hc0]; unfold Client.mutateRequest
    exact updateReqList_ridNotIn _ _ _ hpn
  have hc0i : c0.in_flight_requests = updateReqList c.in_flight_requests rid f1 := by
    rw [hc0]; unfold Client.mutateRequest; rfl
  have hfp : c0.findPending rid = none := by
    unfold Client.findPending
    rw [hc0p]
    exact find?_ridNotIn _ _ hpn
  have hfr : c0.findRequest rid = c0.findInFlight rid := by
    unfold Client.findRequest
    rw [hfp]
  rw [hfr]
  cases hfi : c0.findInFlight rid with
  | none =>
    simp only []
    have hci : c.findInFlight rid = none := by
      unfold Client.findInFlight at hfi ⊢
      rw [hc0i, find_updateReqList _ _ _ hf1r] at hfi
      exact Option.map_eq_none.mp hfi
    refine ⟨hc0p, rfl, rfl, rfl, ?_⟩
    unfold Client.findInFlight at hfi hci ⊢
    rw [hfi, hci]
    rfl
  | some request =>
    dsimp only
    have hrr : request.rid = rid := by
      unfold Client.findInFlight at hfi
      exact find?_rid_eq _ _ _ hfi
    have hx0 : ∃ x0, c.findInFlight rid = some x0 ∧ request = f1 x0 := by
      unfold Client.findInFlight at hfi ⊢
      rw [hc0i, find_updateReqList _ _ _ hf1r] at hfi
      cases hcf : List.find? (fun x => x.rid == rid) c.in_flight_requests with
      | none => rw [hcf] at hfi; exact absurd hfi (by simp)
      | some x0 =>
        rw [hcf] at hfi
        have hx0r : x0.rid = rid := find?_rid_eq _ _ _ hcf
        have hfi2 : some (if x0.rid = rid then f1 x0 else x0) = some request := hfi
        rw [if_pos hx0r] at hfi2
        exact ⟨x0, rfl, (Option.some.inj hfi2).symm⟩
    obtain ⟨x0, hcf, hreq⟩ := hx0
    set a := c0.DetermineRequestAttributes request with ha
    set sr := c0.SetRequestAttributes request a with hsr
    have hc1p : sr.1.pending_requests = c.pending_requests := by
      rw [setRequestAttributes_pending]
      split
      · exact hc0p
      · rw [hc0p]
        exact updateReqList_ridNotIn _ _ _ (by rw [hrr]; exact hpn)
    have hq1 : sr.1.isQueued rid = false := by
      unfold Client.isQueued
      rw [hc1p]
      simpa [Client.isQueued] using hq
    rw [if_pos (by rw [hq1])]
    refine ⟨hc1p, ?_, ?_, ?_, ?_⟩
    · rw [hsr, setRequestAttributes_fifo]; rfl
    · rw [hsr, setRequestAttributes_skipped]; rfl
    · rw [hsr, setRequestAttributes_outstanding]; rfl
    · have hc1i : sr.1.in_flight_requests =
          if request.attributes = a then c0.in_flight_requests
          else updateReqList c0.in_flight_requests rid
            (fun x => { x with attributes := a }) := by
        rw [hsr, setRequestAttributes_inflight, hrr]
      unfold Client.findInFlight at hcf ⊢
      rw [hc1i, hcf]
      split
      · unfold Client.findInFlight at hfi
        rw [hfi, hreq]
        rfl
      · rw [find_updateReqList c0.in_flight_requests rid
            (fun x => { x with attributes := a }) (fun x => rfl)]
        unfold Client.findInFlight at hfi
        rw [hfi]
        simp [hrr, hreq]
        split <;> rfl



theorem find?_of_isQueued (c : Client) (rid : Nat)
    (hq : c.isQueued rid = true) :
    ∃ x, List.find? (fun y => y.rid == rid) c.pending_requests = some x := by
  unfold Client.isQueued at hq
  have := List.any_eq_true.mp hq
  obtain ⟨x, hx, hpx⟩ := this
  have : (List.find? (fun y => y.rid == rid) c.pending_requests).isSome := by
    rw [List.find?_isSome]
    exact ⟨x, hx, hpx⟩
  exact Option.isSome_iff_exists.mp this

theorem pendingInsert_findPending (cx : Client) (r : Request) (rid : Nat)
    (hr : r.rid = rid) (hn : ridNotIn rid cx.pending_requests) :
    (cx.pendingInsert r).findPending rid =
      some { r with fifo_ordering := MakeFifoOrderingId cx.fifo_ordering_ids } := by
  unfold Client.pendingInsert Client.findPending
  dsimp only
  exact find_insertSorted_fresh _ _ rid (by simpa using hr) hn

theorem reprioritize_queued (c : Client) (rid : Nat)
    (old_p new_p : RequestPriorityParams)
    (hq : c.isQueued rid = true)
    (hni : c.inFlightContains rid = false)
    (hwrap : c.fifo_ordering_ids + 1 < 4294967296) :
    ((c.ReprioritizeRequest rid old_p new_p).findPending rid).map
        (fun x => x.fifo_ordering) = some (c.fifo_ordering_ids + 1) ∧
    (c.ReprioritizeRequest rid old_p new_p).num_skipped_scans_due_to_scheduled_start =
      (if old_p.priority < new_p.priority then
        c.num_skipped_scans_due_to_scheduled_start + 1
      else c.num_skipped_scans_due_to_scheduled_start) := by
  have hin : ridNotIn rid c.in_flight_requests :=
    ridNotIn_of_any_false _ _ (by simpa [Client.inFlightContains] using hni)
  unfold Client.ReprioritizeRequest
  dsimp only
  set f1 : Request → Request := fun x =>
    { x with url_priority := new_p.priority, priority := new_p } with hf1
  have hf1r : ∀ x, (f1 x).rid = x.rid := fun x => rfl
  set c0 := c.mutateRequest rid f1 with hc0
  have hc0p : c0.pending_requests = updateReqList c.pending_requests rid f1 := by
    rw [hc0]; unfold Client.mutateRequest; rfl
  obtain ⟨x0, hx0⟩ := find?_of_isQueued c rid hq
  have hx0r : x0.rid = rid := find?_rid_eq _ _ _ hx0
  have hfp : c0.findPending rid = some (f1 x0) := by
    unfold Client.findPending
    rw [hc0p, find_updateReqList _ _ _ hf1r, hx0]
    simp [hx0r]
  have hfr : c0.findRequest rid = some (f1 x0) := by
    unfold Client.findRequest
    rw [hfp]
  rw [hfr]
  dsimp only
  set a := c0.DetermineRequestAttributes (f1 x0) with ha
  set sr := c0.SetRequestAttributes (f1 x0) a with hsr
  have hreqrid : (f1 x0).rid = rid := by rw [hf1r, hx0r]
  have hc1p : sr.1.pending_requests =
      if (f1 x0).attributes = a then c0.pending_requests
      else updateReqList c0.pending_requests rid
        (fun x => { x with attributes := a }) := by
    rw [hsr, setRequestAttributes_pending, hreqrid]
  have hq1 : sr.1.isQueued rid = true := by
    unfold Client.isQueued
    rw [hc1p]
    split
    · rw [hc0p]
      rw [any_updateReqList _ _ _ hf1r]
      simpa [Client.isQueued] using hq
    · rw [any_updateReqList c0.pending_requests rid
          (fun x => { x with attributes := a }) (fun x => rfl), hc0p,
        any_updateReqList _ _ _ hf1r]
      simpa [Client.isQueued] using hq
  rw [if_neg (by simp [hq1])]
  have hfifo2 : sr.1.fifo_ordering_ids = c.fifo_ordering_ids := by
    rw [hsr, setRequestAttributes_fifo]; rfl
  have hskip2 : sr.1.num_skipped_scans_due_to_scheduled_start =
      c.num_skipped_scans_due_to_scheduled_start := by
    rw [hsr, setRequestAttributes_skipped]; rfl
  have hsr2rid : sr.2.rid = rid := by
    rw [hsr, setRequestAttributes_req]
    exact hreqrid
  have herase : ridNotIn rid ((sr.1.pendingErase rid).pending_requests) := by
    unfold Client.pendingErase
    exact ridNotIn_filter _ _
  have hc2f : (sr.1.pendingErase rid).fifo_ordering_ids = c.fifo_ordering_ids := by
    unfold Client.pendingErase
    exact hfifo2
  have hmain : (((sr.1.pendingErase rid).pendingInsert sr.2).findPending rid).map
      (fun x => x.fifo_ordering) = some (c.fifo_ordering_ids + 1) := by
    rw [pendingInsert_findPending _ _ rid hsr2rid herase]
    show some (MakeFifoOrderingId (sr.1.pendingErase rid).fifo_ordering_ids) = _
    rw [hc2f]
    unfold MakeFifoOrderingId
    rw [Nat.mod_eq_of_lt hwrap]
  have hc3skip : ((sr.1.pendingErase rid).pendingInsert
      sr.2).num_skipped_scans_due_to_scheduled_start =
      c.num_skipped_scans_due_to_scheduled_start := by
    unfold Client.pendingInsert Client.pendingErase
    dsimp only
    exact hskip2
  constructor
  · split
    · exact hmain
    · exact hmain
  · split
    · rw [scheduleLoad_skipped, hc3skip]
    · exact hc3skip

/-- Claim C6, counterexample.  Re-prioritizing an IN-FLIGHT handle does more
than "update its priority key": `Client::ReprioritizeRequest` recomputes the
handle's attributes before the in-flight early return (lines 493-500), so
promoting an in-flight delayable request to HIGHEST clears its `Delayable`
attribute and decrements the cached in-flight delayable counter from 1 to
0. -/
theorem C6_counterexample :
    c6Client.in_flight_delayable_count = 1 ∧
    c6Client.isQueued 1 = false ∧
    c6Client.inFlightContains 1 = true ∧
    (c6Client.ReprioritizeRequest 1 ⟨LOW, 0⟩ ⟨HIGHEST, 0⟩).in_flight_delayable_count
      = 0 ∧
    ((c6Client.ReprioritizeRequest 1 ⟨LOW, 0⟩ ⟨HIGHEST, 0⟩).findInFlight 1).map
      (fun x => x.attributes) = some kAttributeInFlight := by
  refine ⟨?_, ?_, ?_, ?_, ?_⟩ <;> decide

/-- Claim C6, amended.  Re-prioritizing a handle: if the handle is in flight,
its priority key is updated AND its attributes are recomputed (adjusting the
cached counters accordingly) and nothing else happens — the pending queue,
fifo counter and scan scheduling are untouched.  If the handle is pending, it
is erased and re-inserted, which always assigns it the fresh fifo id
`fifo_ordering_ids + 1`, strictly larger than every fifo id already observed
by the queue (so it loses its original FIFO position among same-priority
peers); and a coalesced re-evaluation trigger fires iff the new ordinal
priority is strictly higher than the old one. -/
theorem C6_reprioritize (c : Client) (rid : Nat)
    (old_p new_p : RequestPriorityParams)
    (hfifo : ∀ x ∈ c.pending_requests, x.fifo_ordering ≤ c.fifo_ordering_ids)
    (hwrap : c.fifo_ordering_ids + 1 < 4294967296) :
    (c.isQueued rid = false →
      (c.ReprioritizeRequest rid old_p new_p).pending_requests =
        c.pending_requests ∧
      (c.ReprioritizeRequest rid old_p new_p).fifo_ordering_ids =
        c.fifo_ordering_ids ∧
      (c.ReprioritizeRequest rid old_p new_p).num_skipped_scans_due_to_scheduled_start =
        c.num_skipped_scans_due_to_scheduled_start ∧
      (c.ReprioritizeRequest rid old_p new_p).outstanding_scan_tasks =
        c.outstanding_scan_tasks ∧
      ((c.ReprioritizeRequest rid old_p new_p).findInFlight rid).map
          (fun x => x.priority) =
        (c.findInFlight rid).map (fun _ => new_p)) ∧
    (c.isQueued rid = true → c.inFlightContains rid = false →
      ((c.ReprioritizeRequest rid old_p new_p).findPending rid).map
          (fun x => x.fifo_ordering) = some (c.fifo_ordering_ids + 1) ∧
      (∀ x ∈ c.pending_requests,
         x.fifo_ordering < c.fifo_ordering_ids + 1) ∧
      (c.ReprioritizeRequest rid old_p new_p).num_skipped_scans_due_to_scheduled_start =
        (if old_p.priority < new_p.priority then
          c.num_skipped_scans_due_to_scheduled_start + 1
        else c.num_skipped_scans_due_to_scheduled_start)) := by
  constructor
  · intro hq
    exact reprioritize_not_queued c rid old_p new_p hq
  · intro hq hni
    obtain ⟨h1, h2⟩ := reprioritize_queued c rid old_p new_p hq hni hwrap
    refine ⟨h1, ?_, h2⟩
    intro x hx
    have := hfifo x hx
    omega

/-- Claim C6, witness for `C6_reprioritize` at a concrete input (a client with
two pending requests; rid 7 is pending, so the queued branch is the live
one). -/
theorem C6_witness :
    ((submitMany emptyRendererClient LOW 8).isQueued 7 = false →
      ((submitMany emptyRendererClient LOW 8).ReprioritizeRequest 7 ⟨LOW, 0⟩
          ⟨MEDIUM, 0⟩).pending_requests =
        (submitMany emptyRendererClient LOW 8).pending_requests ∧
      ((submitMany emptyRendererClient LOW 8).ReprioritizeRequest 7 ⟨LOW, 0⟩
          ⟨MEDIUM, 0⟩).fifo_ordering_ids =
        (submitMany emptyRendererClient LOW 8).fifo_ordering_ids ∧
      ((submitMany emptyRendererClient LOW 8).ReprioritizeRequest 7 ⟨LOW, 0⟩
          ⟨MEDIUM, 0⟩).num_skipped_scans_due_to_scheduled_start =
        (submitMany emptyRendererClient LOW 8).num_skipped_scans_due_to_scheduled_start ∧
      ((submitMany emptyRendererClient LOW 8).ReprioritizeRequest 7 ⟨LOW, 0⟩
          ⟨MEDIUM, 0⟩).outstanding_scan_tasks =
        (submitMany emptyRendererClient LOW 8).outstanding_scan_tasks ∧
      (((submitMany emptyRendererClient LOW 8).ReprioritizeRequest 7 ⟨LOW, 0⟩
          ⟨MEDIUM, 0⟩).findInFlight 7).map (fun x => x.priority) =
        ((submitMany emptyRendererClient LOW 8).findInFlight 7).map
          (fun _ => (⟨MEDIUM, 0⟩ : RequestPriorityParams))) ∧
    ((submitMany emptyRendererClient LOW 8).isQueued 7 = true →
      (submitMany emptyRendererClient LOW 8).inFlightContains 7 = false →
      (((submitMany emptyRendererClient LOW 8).ReprioritizeRequest 7 ⟨LOW, 0⟩
          ⟨MEDIUM, 0⟩).findPending 7).map (fun x => x.fifo_ordering) =
        some ((submitMany emptyRendererClient LOW 8).fifo_ordering_ids + 1) ∧
      (∀ x ∈ (submitMany emptyRendererClient LOW 8).pending_requests,
         x.fifo_ordering <
           (submitMany emptyRendererClient LOW 8).fifo_ordering_ids + 1) ∧
      ((submitMany emptyRendererClient LOW 8).ReprioritizeRequest 7 ⟨LOW, 0⟩
          ⟨MEDIUM, 0⟩).num_skipped_scans_due_to_scheduled_start =
        (if (⟨LOW, 0⟩ : RequestPriorityParams).priority <
            (⟨MEDIUM, 0⟩ : RequestPriorityParams).priority then
          (submitMany emptyRendererClient LOW 8).num_skipped_scans_due_to_scheduled_start + 1
        else
          (submitMany emptyRendererClient LOW 8).num_skipped_scans_due_to_scheduled_start)) :=
  C6_reprioritize (submitMany emptyRendererClient LOW 8) 7 ⟨LOW, 0⟩ ⟨MEDIUM, 0⟩
    (by decide) (by decide)

/-- Claim C9, counterexample.  "At most one re-evaluation task is ever
outstanding per client" fails: after the posted-task trigger at `c9Step4`
(one task outstanding), the in-flight removal at `c9Step5` runs the pass
synchronously and resets the skipped-scans counter to 0 while the posted task
is still queued; the next trigger at `c9Step6` then posts a second task, so
two tasks are outstanding at once. -/
theorem C9_counterexample :
    c9Step4.outstanding_scan_tasks = 1 ∧
    c9Step5.outstanding_scan_tasks = 1 ∧
    c9Step5.num_skipped_scans_due_to_scheduled_start = 0 ∧
    c9Step6.outstanding_scan_tasks = 2 := by
  refine ⟨?_, ?_, ?_, ?_⟩ <;> decide

/-- Claim C9, amended.  For every sequence of N ≥ 1 re-evaluation triggers
with no intervening execution of the re-evaluation pass, exactly one task is
posted (the first trigger posts it; every later trigger only increments the
skipped-scans counter to N), and running the pass resets the counter to zero.
The further claimed consequence — at most one task ever outstanding — holds
only while every pass execution is itself a posted task: a direct synchronous
pass (e.g. on in-flight removal) resets the counter early and a later trigger
may post a second task while the first is still queued
(`C9_counterexample`). -/
theorem C9_coalescing (c : Client) (N : Nat)
    (h0 : c.num_skipped_scans_due_to_scheduled_start = 0) (hN : 1 ≤ N) :
    ((Client.ScheduleLoadAnyStartablePendingRequests)^[N] c).outstanding_scan_tasks
        = c.outstanding_scan_tasks + 1 ∧
    ((Client.ScheduleLoadAnyStartablePendingRequests)^[N] c).num_skipped_scans_due_to_scheduled_start
        = N ∧
    ∀ (c2 : Client) (now : Nat),
      (c2.LoadAnyStartablePendingRequests now).num_skipped_scans_due_to_scheduled_start
        = 0 := by
  obtain ⟨ho, hs⟩ := schedule_iterate c h0 N hN
  exact ⟨ho, hs, fun c2 now => loadAny_skipped c2 now⟩

/-- Claim C9, witness for `C9_coalescing`: a burst of three triggers on a
concrete client posts exactly one task. -/
theorem C9_witness :
    ((Client.ScheduleLoadAnyStartablePendingRequests)^[3] c9Step3).outstanding_scan_tasks
        = c9Step3.outstanding_scan_tasks + 1 ∧
    ((Client.ScheduleLoadAnyStartablePendingRequests)^[3] c9Step3).num_skipped_scans_due_to_scheduled_start
        = 3 ∧
    ∀ (c2 : Client) (now : Nat),
      (c2.LoadAnyStartablePendingRequests now).num_skipped_scans_due_to_scheduled_start
        = 0 :=
  C9_coalescing c9Step3 3 (by decide) (by decide)

end ResourceSchedulerModel
namespace ResourceSchedulerModel

theorem attrCountTracked_eq (c : Client) (m : RequestAttributes) :
    attrCountTracked c m =
      cntAttr c.in_flight_requests m + cntAttr c.pending_requests m := by
  unfold attrCountTracked cntAttr
  rw [List.filter_append, List.length_append]

theorem cntAttr_zero (l : List Request) (m : RequestAttributes)
    (h : ∀ x ∈ l, RequestAttributesAreSet x.attributes m = false) :
    cntAttr l m = 0 := by
  unfold cntAttr
  rw [List.filter_eq_nil_iff.mpr (by intro a ha; simp [h a ha])]
  rfl

theorem cntAttr_append (l1 l2 : List Request) (m : RequestAttributes) :
    cntAttr (l1 ++ l2) m = cntAttr l1 m + cntAttr l2 m := by
  unfold cntAttr
  rw [List.filter_append, List.length_append]

theorem cntAttr_cons (r : Request) (l : List Request) (m : RequestAttributes) :
    cntAttr (r :: l) m =
      (if RequestAttributesAreSet r.attributes m then 1 else 0) + cntAttr l m := by
  unfold cntAttr
  by_cases h : RequestAttributesAreSet r.attributes m
  · rw [List.filter_cons_of_pos (by simpa using h), if_pos h]
    simp [Nat.add_comm]
  · rw [List.filter_cons_of_neg (by simpa using h), if_neg h]
    simp

theorem cntAttr_singleton (r : Request) (m : RequestAttributes) :
    cntAttr [r] m = if RequestAttributesAreSet r.attributes m then 1 else 0 := by
  rw [show [r] = r :: ([] : List Request) from rfl, cntAttr_cons]
  rfl

theorem cntAttr_perm (l l2 : List Request) (m : RequestAttributes)
    (h : l.Perm l2) : cntAttr l m = cntAttr l2 m := by
  unfold cntAttr
  exact (h.filter _).length_eq

theorem insertSorted_perm (r : Request) (l : List Request) :
    (insertSorted r l).Perm (r :: l) := by
  induction l with
  | nil => exact List.Perm.refl _
  | cons x xs ih =>
    unfold insertSorted
    by_cases h : ScheduledResourceSorter r x
    · rw [if_pos h]
    · rw [if_neg h]
      exact (List.Perm.cons x ih).trans (List.Perm.swap r x xs)

theorem cntAttr_insertSorted (r : Request) (l : List Request)
    (m : RequestAttributes) :
    cntAttr (insertSorted r l) m =
      (if RequestAttributesAreSet r.attributes m then 1 else 0) + cntAttr l m := by
  rw [cntAttr_perm _ _ m (insertSorted_perm r l), cntAttr_cons]

theorem mem_insertSorted (r x : Request) (l : List Request) :
    x ∈ insertSorted r l ↔ x = r ∨ x ∈ l := by
  rw [(insertSorted_perm r l).mem_iff]
  simp

theorem cntAttr_filter_erase (l : List Request) (rid : Nat) (r : Request)
    (m : RequestAttributes) (hmem : r ∈ l) (hr : r.rid = rid)
    (hnod : (l.map (fun x => x.rid)).Nodup) :
    cntAttr l m =
      cntAttr (l.filter (fun x => x.rid ≠ rid)) m +
        (if RequestAttributesAreSet r.attributes m then 1 else 0) := by
  induction l with
  | nil => cases hmem
  | cons x xs ih =>
    rw [List.map_cons, List.nodup_cons] at hnod
    rcases List.mem_cons.mp hmem with hx | hx
    · subst hx
      rw [List.filter_cons_of_neg (by simp [hr])]
      have hnotin : ridNotIn rid xs := by
        intro y hy hyr
        apply hnod.1
        rw [hr, ← hyr]
        exact List.mem_map_of_mem _ hy
      have : xs.filter (fun x => x.rid ≠ rid) = xs := by
        apply List.filter_eq_self.mpr
        intro a ha
        simp [hnotin a ha]
      rw [this, cntAttr_cons, Nat.add_comm]
    · have hxr : x.rid ≠ rid := by
        intro hcon
        apply hnod.1
        rw [hcon, ← hr]
        exact List.mem_map_of_mem _ hx
      rw [List.filter_cons_of_pos (by simp [hxr])]
      rw [cntAttr_cons, cntAttr_cons, ih hx hnod.2]
      omega

theorem cntAttr_update (l : List Request) (rid : Nat) (r : Request)
    (f : Request → Request) (m : RequestAttributes)
    (hmem : r ∈ l) (hr : r.rid = rid)
    (hnod : (l.map (fun x => x.rid)).Nodup) :
    cntAttr (updateReqList l rid f) m +
        (if RequestAttributesAreSet r.attributes m then 1 else 0) =
      cntAttr l m +
        (if RequestAttributesAreSet (f r).attributes m then 1 else 0) := by
  induction l with
  | nil => cases hmem
  | cons x xs ih =>
    rw [List.map_cons, List.nodup_cons] at hnod
    unfold updateReqList
    rw [List.map_cons]
    rcases List.mem_cons.mp hmem with hx | hx
    · subst hx
      rw [if_pos hr]
      have hnotin : ridNotIn rid xs := by
        intro y hy hyr
        apply hnod.1
        rw [hr, ← hyr]
        exact List.mem_map_of_mem _ hy
      have hxs : updateReqList xs rid f = xs := updateReqList_ridNotIn _ _ _ hnotin
      unfold updateReqList at hxs
      rw [hxs, cntAttr_cons, cntAttr_cons]
      omega
    · have hxr : x.rid ≠ rid := by
        intro hcon
        apply hnod.1
        rw [hcon, ← hr]
        exact List.mem_map_of_mem _ hx
      rw [if_neg hxr, cntAttr_cons, cntAttr_cons]
      have ih2 := ih hx hnod.2
      unfold updateReqList at ih2
      omega

theorem cntAttr_update_attrpres (l : List Request) (rid : Nat)
    (f : Request → Request) (m : RequestAttributes)
    (h : ∀ x, (f x).attributes = x.attributes) :
    cntAttr (updateReqList l rid f) m = cntAttr l m := by
  induction l with
  | nil => rfl
  | cons x xs ih =>
    unfold updateReqList
    rw [List.map_cons]
    unfold updateReqList at ih
    by_cases hx : x.rid = rid
    · rw [if_pos hx, cntAttr_cons, cntAttr_cons, ih, h x]
    · rw [if_neg hx, cntAttr_cons, cntAttr_cons, ih]

theorem map_rid_updateReqList (l : List Request) (rid : Nat)
    (f : Request → Request) (hpres : ∀ x, (f x).rid = x.rid) :
    (updateReqList l rid f).map (fun x => x.rid) = l.map (fun x => x.rid) := by
  induction l with
  | nil => rfl
  | cons x xs ih =>
    unfold updateReqList
    rw [List.map_cons, List.map_cons, List.map_cons]
    unfold updateReqList at ih
    by_cases hx : x.rid = rid
    · rw [if_pos hx, ih, hpres x]
    · rw [if_neg hx, ih]

theorem mem_updateReqList (l : List Request) (rid : Nat)
    (f : Request → Request) (x : Request) (hx : x ∈ updateReqList l rid f) :
    ∃ y ∈ l, x = y ∨ x = f y := by
  unfold updateReqList at hx
  obtain ⟨y, hy, hxy⟩ := List.mem_map.mp hx
  by_cases h : y.rid = rid
  · rw [if_pos h] at hxy
    exact ⟨y, hy, Or.inr hxy.symm⟩
  · rw [if_neg h] at hxy
    exact ⟨y, hy, Or.inl hxy.symm⟩

theorem updateReq_append_last (l : List Request) (r : Request)
    (f : Request → Request) (hl : ridNotIn r.rid l) :
    updateReqList (l ++ [r]) r.rid f = l ++ [f r] := by
  unfold updateReqList
  rw [List.map_append]
  congr 1
  · have := updateReqList_ridNotIn l r.rid f hl
    unfold updateReqList at this
    exact this
  · simp

end ResourceSchedulerModel

namespace ResourceSchedulerModel

theorem setRequestAttributes_delayable (c : Client) (r : Request)
    (a : RequestAttributes) :
    (c.SetRequestAttributes r a).1.in_flight_delayable_count =
      if r.attributes = a then c.in_flight_delayable_count
      else
        c.in_flight_delayable_count
          - (if RequestAttributesAreSet r.attributes
                (kAttributeInFlight.lor kAttributeDelayable) then 1 else 0)
          + (if RequestAttributesAreSet a
                (kAttributeInFlight.lor kAttributeDelayable) then 1 else 0) := by
  unfold Client.SetRequestAttributes Client.mutateRequest
  split <;> simp_all

theorem setRequestAttributes_lb (c : Client) (r : Request)
    (a : RequestAttributes) :
    (c.SetRequestAttributes r a).1.total_layout_blocking_count =
      if r.attributes = a then c.total_layout_blocking_count
      else
        c.total_layout_blocking_count
          - (if RequestAttributesAreSet r.attributes kAttributeLayoutBlocking
             then 1 else 0)
          + (if RequestAttributesAreSet a kAttributeLayoutBlocking
             then 1 else 0) := by
  unfold Client.SetRequestAttributes Client.mutateRequest
  split <;> simp_all

theorem attr02_flags (x : RequestAttributes)
    (h : x = kAttributeNone ∨ x = kAttributeDelayable) :
    RequestAttributesAreSet x (kAttributeInFlight.lor kAttributeDelayable) = false ∧
    RequestAttributesAreSet x kAttributeLayoutBlocking = false ∧
    RequestAttributesAreSet x kAttributeInFlight = false := by
  rcases h with h | h <;> subst h <;> refine ⟨by decide, by decide, by decide⟩

theorem attr13_flags (x : RequestAttributes)
    (h : x = kAttributeInFlight ∨ x = kAttributeInFlight.lor kAttributeDelayable) :
    RequestAttributesAreSet x kAttributeLayoutBlocking = false ∧
    RequestAttributesAreSet x kAttributeInFlight = true ∧
    (RequestAttributesAreSet x (kAttributeInFlight.lor kAttributeDelayable) =
      decide (x = kAttributeInFlight.lor kAttributeDelayable)) := by
  rcases h with h | h <;> subst h <;> refine ⟨by decide, by decide, by decide⟩

theorem determine_inflight_notLB (c : Client) (r : Request)
    (hLB : RequestAttributesAreSet r.attributes kAttributeLayoutBlocking = false)
    (hin : c.inFlightContains r.rid = true) :
    c.DetermineRequestAttributes r = kAttributeInFlight ∨
    c.DetermineRequestAttributes r = kAttributeInFlight.lor kAttributeDelayable := by
  unfold Client.DetermineRequestAttributes
  simp only [hin, hLB]
  split_ifs <;> first
    | exact Or.inl (by decide)
    | exact Or.inr (by decide)
    | simp_all

theorem determine_free_notLB (c : Client) (r : Request)
    (hLB : RequestAttributesAreSet r.attributes kAttributeLayoutBlocking = false)
    (hin : c.inFlightContains r.rid = false) :
    c.DetermineRequestAttributes r = kAttributeNone ∨
    c.DetermineRequestAttributes r = kAttributeDelayable := by
  unfold Client.DetermineRequestAttributes
  simp only [hin, hLB]
  split_ifs <;> first
    | exact Or.inl (by decide)
    | exact Or.inr (by decide)
    | simp_all

end ResourceSchedulerModel

namespace ResourceSchedulerModel

theorem wf_of_parts (c : Client)
    (hpok : ∀ r ∈ c.pending_requests,
      r.attributes = kAttributeNone ∨ r.attributes = kAttributeDelayable)
    (hiok : ∀ r ∈ c.in_flight_requests,
      r.attributes = kAttributeInFlight ∨
      r.attributes = kAttributeInFlight.lor kAttributeDelayable)
    (hnd : ((c.pending_requests ++ c.in_flight_requests).map
      (fun r => r.rid)).Nodup)
    (hd : c.in_flight_delayable_count =
      cntAttr c.in_flight_requests (kAttributeInFlight.lor kAttributeDelayable))
    (hl : c.total_layout_blocking_count = 0) :
    ClientWF c := by
  refine ⟨⟨?_, ?_⟩, hpok, hiok, hnd⟩
  · rw [attrCountTracked_eq, hd,
      cntAttr_zero c.pending_requests _
        (fun x hx => (attr02_flags _ (hpok x hx)).1)]
    omega
  · rw [attrCountTracked_eq, hl,
      cntAttr_zero c.pending_requests _
        (fun x hx => (attr02_flags _ (hpok x hx)).2.1),
      cntAttr_zero c.in_flight_requests _
        (fun x hx => (attr13_flags _ (hiok x hx)).1)]


theorem wf_parts (c : Client) (h : ClientWF c) :
    c.in_flight_delayable_count =
      cntAttr c.in_flight_requests (kAttributeInFlight.lor kAttributeDelayable) ∧
    c.total_layout_blocking_count = 0 := by
  obtain ⟨⟨hd, hl⟩, hpok, hiok, hnd⟩ := h
  rw [attrCountTracked_eq,
    cntAttr_zero c.pending_requests _
      (fun x hx => (attr02_flags _ (hpok x hx)).1)] at hd
  rw [attrCountTracked_eq,
    cntAttr_zero c.pending_requests _
      (fun x hx => (attr02_flags _ (hpok x hx)).2.1),
    cntAttr_zero c.in_flight_requests _
      (fun x hx => (attr13_flags _ (hiok x hx)).1)] at hl
  exact ⟨hd, hl⟩

theorem erase_pending_wf (c : Client) (rid : Nat) (h : ClientWF c) :
    ClientWF (c.pendingErase rid) := by
  obtain ⟨hd, hl⟩ := wf_parts c h
  obtain ⟨_, hpok, hiok, hnd⟩ := h
  have hsub : (c.pendingErase rid).pending_requests.Sublist c.pending_requests := by
    unfold Client.pendingErase
    exact List.filter_sublist _
  apply wf_of_parts
  · intro r hr
    exact hpok r (hsub.mem hr)
  · exact hiok
  · show (((c.pendingErase rid).pending_requests ++
      c.in_flight_requests).map (fun r => r.rid)).Nodup
    exact List.Nodup.sublist
      ((hsub.append_right c.in_flight_requests).map (fun r => r.rid)) hnd
  · exact hd
  · exact hl

end ResourceSchedulerModel

namespace ResourceSchedulerModel

theorem start_request_fields (x : Request) (mode : StartMode) :
    ((x.start mode).request).attributes = x.attributes ∧
    ((x.start mode).request).rid = x.rid := by
  unfold Request.start
  split_ifs <;> exact ⟨rfl, rfl⟩

theorem attr_ne_02_13 (x y : RequestAttributes)
    (hx : x = kAttributeNone ∨ x = kAttributeDelayable)
    (hy : y = kAttributeInFlight ∨ y = kAttributeInFlight.lor kAttributeDelayable) :
    x ≠ y := by
  rcases hx with hx | hx <;> rcases hy with hy | hy <;> subst hx <;> subst hy <;> decide

theorem startTail (c1 : Client) (r : Request) (mode : StartMode)
    (hp : ridNotIn r.rid c1.pending_requests)
    (hi : ridNotIn r.rid c1.in_flight_requests)
    (hor : r.attributes = kAttributeNone ∨ r.attributes = kAttributeDelayable) :
    ∃ (a : RequestAttributes) (r2 : Request),
      (a = kAttributeInFlight ∨ a = kAttributeInFlight.lor kAttributeDelayable) ∧
      r2.rid = r.rid ∧ r2.attributes = a ∧
      (let c2 : Client :=
        { c1 with in_flight_requests := c1.in_flight_requests ++ [r] }
       let sr := c2.SetRequestAttributes r (c2.DetermineRequestAttributes r)
       let final := sr.1.mutateRequest r.rid (fun _ => (sr.2.start mode).request)
       final.pending_requests = c1.pending_requests ∧
       final.in_flight_requests = c1.in_flight_requests ++ [r2] ∧
       final.in_flight_delayable_count =
         c1.in_flight_delayable_count +
           (if RequestAttributesAreSet a
              (kAttributeInFlight.lor kAttributeDelayable) then 1 else 0) ∧
       final.total_layout_blocking_count = c1.total_layout_blocking_count) := by
  set c2 : Client :=
    { c1 with in_flight_requests := c1.in_flight_requests ++ [r] } with hc2
  have hc2in : c2.inFlightContains r.rid = true := by
    rw [hc2]
    unfold Client.inFlightContains
    simp
  have hLB := (attr02_flags _ hor).2.1
  have ha := determine_inflight_notLB c2 r hLB hc2in
  set a := c2.DetermineRequestAttributes r with haa
  have hchange : r.attributes ≠ a := attr_ne_02_13 _ _ hor ha
  set sr := c2.SetRequestAttributes r a with hsr
  have hsr2 : sr.2 = { r with attributes := a } := by
    rw [hsr]; exact setRequestAttributes_req _ _ _
  have hstart := start_request_fields sr.2 mode
  refine ⟨a, (sr.2.start mode).request, ha,
    by rw [hstart.2, hsr2], by rw [hstart.1, hsr2], ?_, ?_, ?_, ?_⟩
  · show (sr.1.mutateRequest r.rid
      (fun _ => (sr.2.start mode).request)).pending_requests = c1.pending_requests
    unfold Client.mutateRequest
    have h1 : sr.1.pending_requests = c1.pending_requests := by
      rw [hsr, setRequestAttributes_pending, if_neg hchange]
      show updateReqList c2.pending_requests r.rid _ = c1.pending_requests
      have : c2.pending_requests = c1.pending_requests := by rw [hc2]
      rw [this]
      exact updateReqList_ridNotIn _ _ _ hp
    show updateReqList sr.1.pending_requests r.rid _ = c1.pending_requests
    rw [h1]
    exact updateReqList_ridNotIn _ _ _ hp
  · show (sr.1.mutateRequest r.rid
      (fun _ => (sr.2.start mode).request)).in_flight_requests =
      c1.in_flight_requests ++ [(sr.2.start mode).request]
    unfold Client.mutateRequest
    have h1 : sr.1.in_flight_requests =
        c1.in_flight_requests ++ [({ r with attributes := a } : Request)] := by
      rw [hsr, setRequestAttributes_inflight, if_neg hchange]
      show updateReqList c2.in_flight_requests r.rid _ = _
      have : c2.in_flight_requests = c1.in_flight_requests ++ [r] := by rw [hc2]
      rw [this]
      exact updateReq_append_last _ _ _ hi
    show updateReqList sr.1.in_flight_requests r.rid _ = _
    rw [h1]
    have := updateReq_append_last c1.in_flight_requests
      ({ r with attributes := a } : Request)
      (fun _ => (sr.2.start mode).request) hi
    exact this
  · show (sr.1.mutateRequest r.rid _).in_flight_delayable_count = _
    have h1 : (sr.1.mutateRequest r.rid
        (fun _ => (sr.2.start mode).request)).in_flight_delayable_count =
        sr.1.in_flight_delayable_count := rfl
    rw [h1, hsr, setRequestAttributes_delayable, if_neg hchange]
    rw [(attr02_flags _ hor).1]
    show c2.in_flight_delayable_count - 0 + _ = _
    have : c2.in_flight_delayable_count = c1.in_flight_delayable_count := by rw [hc2]
    rw [this]
    omega
  · show (sr.1.mutateRequest r.rid _).total_layout_blocking_count = _
    have h1 : (sr.1.mutateRequest r.rid
        (fun _ => (sr.2.start mode).request)).total_layout_blocking_count =
        sr.1.total_layout_blocking_count := rfl
    rw [h1, hsr, setRequestAttributes_lb, if_neg hchange]
    rw [hLB, (attr13_flags _ ha).1]
    show c2.total_layout_blocking_count - 0 + 0 = _
    have : c2.total_layout_blocking_count = c1.total_layout_blocking_count := by
      rw [hc2]
    rw [this]
    omega

end ResourceSchedulerModel

namespace ResourceSchedulerModel

theorem ridNotIn_of_find?_none (l : List Request) (rid : Nat)
    (h : l.find? (fun x => x.rid == rid) = none) : ridNotIn rid l := by
  intro x hx hxr
  have := List.find?_eq_none.mp h x hx
  simp [hxr] at this

theorem any_of_find?_some (l : List Request) (rid : Nat) (x : Request)
    (h : l.find? (fun y => y.rid == rid) = some x) :
    l.any (fun y => y.rid == rid) = true := by
  refine List.any_eq_true.mpr ⟨x, List.mem_of_find?_eq_some h, ?_⟩
  have := List.find?_some h
  simpa using this

theorem any_false_of_ridNotIn (l : List Request) (rid : Nat)
    (h : ridNotIn rid l) : l.any (fun y => y.rid == rid) = false := by
  rw [List.any_eq_false]
  intro x hx
  simp [h x hx]

theorem findRequest_none_parts (c : Client) (rid : Nat)
    (h : c.findRequest rid = none) :
    ridNotIn rid c.pending_requests ∧ ridNotIn rid c.in_flight_requests := by
  unfold Client.findRequest at h
  cases hfp : c.findPending rid with
  | some x => rw [hfp] at h; cases h
  | none =>
    rw [hfp] at h
    unfold Client.findPending at hfp
    unfold Client.findInFlight at h
    exact ⟨ridNotIn_of_find?_none _ _ hfp, ridNotIn_of_find?_none _ _ h⟩

theorem pending_inflight_disjoint (c : Client)
    (hnd : ((c.pending_requests ++ c.in_flight_requests).map
      (fun r => r.rid)).Nodup)
    (r : Request) (hr : r ∈ c.pending_requests) :
    ridNotIn r.rid c.in_flight_requests := by
  intro y hy hyr
  rw [List.map_append] at hnd
  have hdisj := (List.nodup_append.mp hnd).2.2
  exact hdisj (List.mem_map_of_mem _ hr) (by rw [← hyr]; exact List.mem_map_of_mem _ hy)

theorem inflight_pending_disjoint (c : Client)
    (hnd : ((c.pending_requests ++ c.in_flight_requests).map
      (fun r => r.rid)).Nodup)
    (r : Request) (hr : r ∈ c.in_flight_requests) :
    ridNotIn r.rid c.pending_requests := by
  intro y hy hyr
  rw [List.map_append] at hnd
  have hdisj := (List.nodup_append.mp hnd).2.2
  exact hdisj (by rw [← hyr]; exact List.mem_map_of_mem _ hy) (List.mem_map_of_mem _ hr)

theorem cntAttr_pos_of_mem (l : List Request) (r : Request)
    (m : RequestAttributes) (hmem : r ∈ l)
    (hp : RequestAttributesAreSet r.attributes m = true) :
    1 ≤ cntAttr l m := by
  unfold cntAttr
  have : r ∈ l.filter (fun x => RequestAttributesAreSet x.attributes m) :=
    List.mem_filter.mpr ⟨hmem, by simp [hp]⟩
  exact List.length_pos.mpr (List.ne_nil_of_mem this)

theorem startRequest_components (c : Client) (r : Request) (mode : StartMode)
    (now : Nat)
    (hp : ridNotIn r.rid c.pending_requests)
    (hi : ridNotIn r.rid c.in_flight_requests)
    (hor : r.attributes = kAttributeNone ∨ r.attributes = kAttributeDelayable) :
    ∃ (a : RequestAttributes) (r2 : Request),
      (a = kAttributeInFlight ∨ a = kAttributeInFlight.lor kAttributeDelayable) ∧
      r2.rid = r.rid ∧ r2.attributes = a ∧
      (c.StartRequest r mode now).pending_requests = c.pending_requests ∧
      (c.StartRequest r mode now).in_flight_requests =
        c.in_flight_requests ++ [r2] ∧
      (c.StartRequest r mode now).in_flight_delayable_count =
        c.in_flight_delayable_count +
          (if RequestAttributesAreSet a
             (kAttributeInFlight.lor kAttributeDelayable) then 1 else 0) ∧
      (c.StartRequest r mode now).total_layout_blocking_count =
        c.total_layout_blocking_count := by
  unfold Client.StartRequest
  dsimp only
  split_ifs with hdel
  · exact startTail { c with last_non_delayable_request_start := some now }
      r mode hp hi hor
  · exact startTail c r mode hp hi hor

theorem startRequest_wf (c : Client) (r : Request) (mode : StartMode)
    (now : Nat) (hwf : ClientWF c)
    (hp : ridNotIn r.rid c.pending_requests)
    (hi : ridNotIn r.rid c.in_flight_requests)
    (hor : r.attributes = kAttributeNone ∨ r.attributes = kAttributeDelayable) :
    ClientWF (c.StartRequest r mode now) := by
  obtain ⟨a, r2, ha, hrid, hattrs, hpend, hinf, hdc, hlb⟩ :=
    startRequest_components c r mode now hp hi hor
  obtain ⟨hd, hl⟩ := wf_parts c hwf
  obtain ⟨_, hpok, hiok, hnd⟩ := hwf
  apply wf_of_parts
  · rw [hpend]
    exact hpok
  · rw [hinf]
    intro x hx
    rcases List.mem_append.mp hx with h | h
    · exact hiok x h
    · have hx2 : x = r2 := by simpa using h
      rw [hx2, hattrs]
      exact ha
  · rw [hpend, hinf, ← List.append_assoc, List.map_append, List.nodup_append]
    refine ⟨hnd, by simp, ?_⟩
    intro y hy
    simp only [List.map_cons, List.map_nil, List.mem_cons, List.not_mem_nil,
      or_false]
    intro hyr
    rw [List.map_append, List.mem_append] at hy
    rcases hy with hy | hy
    · obtain ⟨z, hz, hzr⟩ := List.mem_map.mp hy
      exact hp z hz (by rw [hzr, hyr, hrid])
    · obtain ⟨z, hz, hzr⟩ := List.mem_map.mp hy
      exact hi z hz (by rw [hzr, hyr, hrid])
  · rw [hdc, hinf, cntAttr_append, cntAttr_singleton, hattrs, hd]
  · rw [hlb, hl]

end ResourceSchedulerModel

namespace ResourceSchedulerModel

theorem setFree_client (c : Client) (r : Request) (a : RequestAttributes)
    (hp : ridNotIn r.rid c.pending_requests)
    (hi : ridNotIn r.rid c.in_flight_requests)
    (hor : r.attributes = kAttributeNone ∨ r.attributes = kAttributeDelayable)
    (hna : a = kAttributeNone ∨ a = kAttributeDelayable) :
    (c.SetRequestAttributes r a).1 = c := by
  obtain ⟨ho3, hoL, _⟩ := attr02_flags _ hor
  obtain ⟨hn3, hnL, _⟩ := attr02_flags _ hna
  unfold Client.SetRequestAttributes Client.mutateRequest
  split
  · rfl
  · simp [ho3, hoL, hn3, hnL, updateReqList_ridNotIn _ _ _ hp,
      updateReqList_ridNotIn _ _ _ hi]

theorem pendingInsert_wf (c : Client) (r : Request) (hwf : ClientWF c)
    (hor : r.attributes = kAttributeNone ∨ r.attributes = kAttributeDelayable)
    (hp : ridNotIn r.rid c.pending_requests)
    (hi : ridNotIn r.rid c.in_flight_requests) :
    ClientWF (c.pendingInsert r) := by
  obtain ⟨hd, hl⟩ := wf_parts c hwf
  obtain ⟨_, hpok, hiok, hnd⟩ := hwf
  have hpend : (c.pendingInsert r).pending_requests =
      insertSorted { r with fifo_ordering := MakeFifoOrderingId c.fifo_ordering_ids }
        c.pending_requests := rfl
  apply wf_of_parts
  · rw [hpend]
    intro x hx
    rcases (mem_insertSorted _ _ _).mp hx with hx2 | hx2
    · rw [hx2]
      exact hor
    · exact hpok x hx2
  · exact hiok
  · rw [hpend]
    show ((insertSorted _ c.pending_requests ++ c.in_flight_requests).map
      (fun x => x.rid)).Nodup
    have hperm :
        ((insertSorted
            { r with fifo_ordering := MakeFifoOrderingId c.fifo_ordering_ids }
            c.pending_requests ++ c.in_flight_requests).map (fun x => x.rid)).Perm
          ((({ r with fifo_ordering := MakeFifoOrderingId c.fifo_ordering_ids } :
              Request) :: c.pending_requests ++ c.in_flight_requests).map
            (fun x => x.rid)) :=
      ((insertSorted_perm _ _).append_right _).map _
    rw [hperm.nodup_iff]
    simp only [List.cons_append, List.map_cons, List.nodup_cons]
    refine ⟨?_, hnd⟩
    intro hmem
    rw [List.map_append, List.mem_append] at hmem
    rcases hmem with hmem | hmem
    · obtain ⟨z, hz, hzr⟩ := List.mem_map.mp hmem
      exact hp z hz (by simpa using hzr)
    · obtain ⟨z, hz, hzr⟩ := List.mem_map.mp hmem
      exact hi z hz (by simpa using hzr)
  · exact hd
  · exact hl

theorem scheduleRequest_wf (c : Client) (r : Request) (now : Nat)
    (hwf : ClientWF c)
    (hattrs : r.attributes = kAttributeNone)
    (hfresh : c.findRequest r.rid = none) :
    ClientWF (c.ScheduleRequest r now) := by
  obtain ⟨hp, hi⟩ := findRequest_none_parts c r.rid hfresh
  have hor : r.attributes = kAttributeNone ∨ r.attributes = kAttributeDelayable :=
    Or.inl hattrs
  have hLB := (attr02_flags _ hor).2.1
  have hinc : c.inFlightContains r.rid = false := by
    unfold Client.inFlightContains
    exact any_false_of_ridNotIn _ _ hi
  have ha := determine_free_notLB c r hLB hinc
  unfold Client.ScheduleRequest
  dsimp only
  have hset : (c.SetRequestAttributes r (c.DetermineRequestAttributes r)).1 = c :=
    setFree_client c r _ hp hi hor ha
  have hset2 : (c.SetRequestAttributes r (c.DetermineRequestAttributes r)).2 =
      { r with attributes := c.DetermineRequestAttributes r } :=
    setRequestAttributes_req _ _ _
  rw [hset, hset2]
  split
  · exact startRequest_wf c _ _ now hwf hp hi (by simpa using ha)
  · exact pendingInsert_wf c _ hwf (by simpa using ha) hp hi

end ResourceSchedulerModel

namespace ResourceSchedulerModel

theorem loadLoop_wf (now : Nat) :
    ∀ (fuel : Nat) (c : Client) (l : List Request),
      ClientWF c → (∀ x ∈ l, x ∈ c.pending_requests) →
      ClientWF (Client.loadLoop now fuel c l) := by
  intro fuel
  induction fuel with
  | zero => intro c l h _; exact h
  | succ n ih =>
    intro c l hwf hsub
    cases l with
    | nil => exact hwf
    | cons r rest =>
      unfold Client.loadLoop
      cases hres : c.ShouldStartRequest r now with
      | START_REQUEST =>
        dsimp only
        apply ih
        · have hmem : r ∈ c.pending_requests := hsub r (List.mem_cons_self r rest)
          have hor := hwf.2.1 r hmem
          have hnd := hwf.2.2.2
          have hi : ridNotIn r.rid c.in_flight_requests :=
            pending_inflight_disjoint c hnd r hmem
          apply startRequest_wf
          · exact erase_pending_wf c r.rid hwf
          · show ridNotIn r.rid (c.pendingErase r.rid).pending_requests
            unfold Client.pendingErase
            exact ridNotIn_filter _ _
          · exact hi
          · exact hor
        · intro x hx
          exact hx
      | DO_NOT_START_REQUEST_AND_KEEP_SEARCHING =>
        dsimp only
        exact ih c rest hwf (fun x hx => hsub x (List.mem_cons_of_mem r hx))
      | DO_NOT_START_REQUEST_AND_STOP_SEARCHING => exact hwf

theorem loadAny_wf (c : Client) (now : Nat) (hwf : ClientWF c) :
    ClientWF (c.LoadAnyStartablePendingRequests now) := by
  unfold Client.LoadAnyStartablePendingRequests
  dsimp only
  apply loadLoop_wf
  · exact hwf
  · intro x hx
    exact hx

theorem removeRequest_wf (c : Client) (rid : Nat) (now : Nat)
    (hwf : ClientWF c) : ClientWF (c.RemoveRequest rid now) := by
  unfold Client.RemoveRequest
  split
  · exact erase_pending_wf c rid hwf
  · cases hfi : c.findInFlight rid with
    | none => exact hwf
    | some request =>
      dsimp only
      obtain ⟨hd, hl⟩ := wf_parts c hwf
      obtain ⟨_, hpok, hiok, hnd⟩ := hwf
      unfold Client.findInFlight at hfi
      have hmem : request ∈ c.in_flight_requests := List.mem_of_find?_eq_some hfi
      have hrr : request.rid = rid := find?_rid_eq _ _ _ hfi
      have hor := hiok request hmem
      have hflags := attr13_flags _ hor
      have hpnotin : ridNotIn rid c.pending_requests := by
        rw [← hrr]
        exact inflight_pending_disjoint c hnd request hmem
      have hinodup : (c.in_flight_requests.map (fun x => x.rid)).Nodup := by
        rw [List.map_append] at hnd
        exact (List.nodup_append.mp hnd).2.1
      have hchange : request.attributes ≠ kAttributeNone := by
        rcases hor with h | h <;> rw [h] <;> decide
      set cm : Client := (if RequestAttributesAreSet request.attributes
          kAttributeDelayable = false then
          { c with last_non_delayable_request_end := some now } else c) with hcm
      have hcmp : cm.pending_requests = c.pending_requests := by
        rw [hcm]; split <;> rfl
      have hcmi : cm.in_flight_requests = c.in_flight_requests := by
        rw [hcm]; split <;> rfl
      have hcmd : cm.in_flight_delayable_count = c.in_flight_delayable_count := by
        rw [hcm]; split <;> rfl
      have hcml : cm.total_layout_blocking_count =
          c.total_layout_blocking_count := by
        rw [hcm]; split <;> rfl
      apply loadAny_wf
      set c2 : Client := { cm with in_flight_requests :=
        cm.in_flight_requests.filter (fun x => x.rid ≠ rid) } with hc2
      have hc2p : c2.pending_requests = c.pending_requests := by
        rw [hc2]
        show cm.pending_requests = c.pending_requests
        exact hcmp
      have hc2i : c2.in_flight_requests =
          c.in_flight_requests.filter (fun x => x.rid ≠ rid) := by
        rw [hc2]
        show cm.in_flight_requests.filter _ = _
        rw [hcmi]
      have hfnotin : ridNotIn request.rid c2.in_flight_requests := by
        rw [hc2i, hrr]
        exact ridNotIn_filter _ _
      have hfnotp : ridNotIn request.rid c2.pending_requests := by
        rw [hc2p, hrr]
        exact hpnotin
      apply wf_of_parts
      · rw [setRequestAttributes_pending, if_neg hchange]
        show ∀ x ∈ updateReqList c2.pending_requests request.rid _, _
        rw [updateReqList_ridNotIn _ _ _ hfnotp, hc2p]
        exact hpok
      · rw [setRequestAttributes_inflight, if_neg hchange]
        show ∀ x ∈ updateReqList c2.in_flight_requests request.rid _, _
        rw [updateReqList_ridNotIn _ _ _ hfnotin, hc2i]
        intro x hx
        exact hiok x (List.mem_of_mem_filter hx)
      · rw [setRequestAttributes_pending, setRequestAttributes_inflight,
          if_neg hchange, if_neg hchange]
        show ((updateReqList c2.pending_requests request.rid _ ++
          updateReqList c2.in_flight_requests request.rid _).map
            (fun x => x.rid)).Nodup
        rw [updateReqList_ridNotIn _ _ _ hfnotp,
          updateReqList_ridNotIn _ _ _ hfnotin, hc2p, hc2i]
        have hsub : (c.pending_requests ++
            c.in_flight_requests.filter (fun x => x.rid ≠ rid)).Sublist
            (c.pending_requests ++ c.in_flight_requests) :=
          (List.filter_sublist _).append_left c.pending_requests
        exact List.Nodup.sublist (hsub.map _) hnd
      · rw [setRequestAttributes_delayable, if_neg hchange,
          setRequestAttributes_inflight, if_neg hchange]
        rw [updateReqList_ridNotIn _ _ _ hfnotin, hc2i]
        show c2.in_flight_delayable_count - _ + _ = _
        rw [hc2]
        show cm.in_flight_delayable_count - _ + _ = _
        rw [hcmd, hd]
        have herase := cntAttr_filter_erase c.in_flight_requests rid request
          (kAttributeInFlight.lor kAttributeDelayable) hmem hrr hinodup
        have hpos : (if RequestAttributesAreSet request.attributes
            (kAttributeInFlight.lor kAttributeDelayable) then 1 else 0) ≤
            cntAttr c.in_flight_requests
              (kAttributeInFlight.lor kAttributeDelayable) := by
          split
          · next hset =>
            exact cntAttr_pos_of_mem _ request _ hmem hset
          · omega
        have hzero : (if RequestAttributesAreSet kAttributeNone
            (kAttributeInFlight.lor kAttributeDelayable) then 1 else 0) = 0 := by
          decide
        rw [hzero]
        omega
      · rw [setRequestAttributes_lb, if_neg hchange]
        show c2.total_layout_blocking_count - _ + _ = 0
        rw [hc2]
        show cm.total_layout_blocking_count - _ + _ = 0
        rw [hcml, hl, hflags.1]
        decide

end ResourceSchedulerModel

namespace ResourceSchedulerModel

theorem mutate_attrpres_wf (c : Client) (rid : Nat) (f : Request → Request)
    (hridf : ∀ x, (f x).rid = x.rid)
    (hattrf : ∀ x, (f x).attributes = x.attributes)
    (hwf : ClientWF c) : ClientWF (c.mutateRequest rid f) := by
  obtain ⟨hd, hl⟩ := wf_parts c hwf
  obtain ⟨_, hpok, hiok, hnd⟩ := hwf
  apply wf_of_parts
  · show ∀ x ∈ updateReqList c.pending_requests rid f, _
    intro x hx
    obtain ⟨y, hy, hxy⟩ := mem_updateReqList _ _ _ _ hx
    rcases hxy with hxy | hxy
    · rw [hxy]; exact hpok y hy
    · rw [hxy, hattrf y]; exact hpok y hy
  · show ∀ x ∈ updateReqList c.in_flight_requests rid f, _
    intro x hx
    obtain ⟨y, hy, hxy⟩ := mem_updateReqList _ _ _ _ hx
    rcases hxy with hxy | hxy
    · rw [hxy]; exact hiok y hy
    · rw [hxy, hattrf y]; exact hiok y hy
  · show ((updateReqList c.pending_requests rid f ++
      updateReqList c.in_flight_requests rid f).map (fun x => x.rid)).Nodup
    rw [List.map_append, map_rid_updateReqList _ _ _ hridf,
      map_rid_updateReqList _ _ _ hridf, ← List.map_append]
    exact hnd
  · show c.in_flight_delayable_count =
      cntAttr (updateReqList c.in_flight_requests rid f) _
    rw [cntAttr_update_attrpres _ _ _ _ hattrf]
    exact hd
  · exact hl

end ResourceSchedulerModel

namespace ResourceSchedulerModel

theorem scheduleLoad_wf (c : Client) (hwf : ClientWF c) :
    ClientWF c.ScheduleLoadAnyStartablePendingRequests := by
  unfold Client.ScheduleLoadAnyStartablePendingRequests
  split <;> exact hwf

theorem reprioritize_wf (c : Client) (rid : Nat)
    (old_p new_p : RequestPriorityParams) (hwf : ClientWF c) :
    ClientWF (c.ReprioritizeRequest rid old_p new_p) := by
  unfold Client.ReprioritizeRequest
  dsimp only
  set f1 : Request → Request := fun x =>
    { x with url_priority := new_p.priority, priority := new_p } with hf1
  have hf1r : ∀ x, (f1 x).rid = x.rid := fun x => rfl
  have hf1a : ∀ x, (f1 x).attributes = x.attributes := fun x => rfl
  set c0 := c.mutateRequest rid f1 with hc0
  have hwf0 : ClientWF c0 := by
    rw [hc0]
    exact mutate_attrpres_wf c rid f1 hf1r hf1a hwf
  cases hfr : c0.findRequest rid with
  | none => exact hwf0
  | some request =>
    dsimp only
    obtain ⟨hd0, hl0⟩ := wf_parts c0 hwf0
    cases hfp : c0.findPending rid with
    | some rp =>
      unfold Client.findRequest at hfr
      rw [hfp] at hfr
      have hrp : rp = request := Option.some.inj hfr
      subst hrp
      unfold Client.findPending at hfp
      have hmem : rp ∈ c0.pending_requests := List.mem_of_find?_eq_some hfp
      have hrr : rp.rid = rid := find?_rid_eq _ _ _ hfp
      have hor : rp.attributes = kAttributeNone ∨
          rp.attributes = kAttributeDelayable := hwf0.2.1 rp hmem
      have hLB := (attr02_flags _ hor).2.1
      have hinotin : ridNotIn rid c0.in_flight_requests := by
        rw [← hrr]
        exact pending_inflight_disjoint c0 hwf0.2.2.2 rp hmem
      have hinc : c0.inFlightContains rp.rid = false := by
        unfold Client.inFlightContains
        rw [hrr]
        exact any_false_of_ridNotIn _ _ hinotin
      have ha := determine_free_notLB c0 rp hLB hinc
      set a := c0.DetermineRequestAttributes rp with haDef
      set sr := c0.SetRequestAttributes rp a with hsr
      have hc1i : sr.1.in_flight_requests = c0.in_flight_requests := by
        rw [hsr, setRequestAttributes_inflight]
        split
        · rfl
        · rw [hrr]
          exact updateReqList_ridNotIn _ _ _ hinotin
      have hc1p : sr.1.pending_requests =
          if rp.attributes = a then c0.pending_requests
          else updateReqList c0.pending_requests rid
            (fun x => { x with attributes := a }) := by
        rw [hsr, setRequestAttributes_pending, hrr]
      have hwf1 : ClientWF sr.1 := by
        by_cases heq : rp.attributes = a
        · have hid : sr.1 = c0 := by
            rw [hsr]
            unfold Client.SetRequestAttributes
            rw [if_pos heq]
          rw [hid]
          exact hwf0
        · apply wf_of_parts
          · rw [hc1p, if_neg heq]
            intro x hx
            obtain ⟨y, hy, hxy⟩ := mem_updateReqList _ _ _ _ hx
            rcases hxy with hxy | hxy
            · rw [hxy]
              exact hwf0.2.1 y hy
            · rw [hxy]
              exact ha
          · rw [hc1i]
            exact hwf0.2.2.1
          · rw [hc1p, if_neg heq, hc1i, List.map_append,
              map_rid_updateReqList c0.pending_requests rid
                (fun x => { x with attributes := a }) (fun x => rfl),
              ← List.map_append]
            exact hwf0.2.2.2
          · rw [hc1i, hsr, setRequestAttributes_delayable, if_neg heq,
              (attr02_flags _ hor).1, (attr02_flags _ ha).1]
            simp [hd0]
          · rw [hsr, setRequestAttributes_lb, if_neg heq, hLB,
              (attr02_flags _ ha).2.1]
            simp [hl0]
      have hq1 : sr.1.isQueued rid = true := by
        unfold Client.isQueued
        rw [hc1p]
        split
        · exact any_of_find?_some _ _ _ hfp
        · rw [any_updateReqList c0.pending_requests rid
            (fun x => { x with attributes := a }) (fun x => rfl)]
          exact any_of_find?_some _ _ _ hfp
      rw [if_neg (by simp [hq1])]
      have hwf2 : ClientWF (sr.1.pendingErase rid) := erase_pending_wf _ _ hwf1
      have hsr2 : sr.2 = { rp with attributes := a } := by
        rw [hsr]
        exact setRequestAttributes_req _ _ _
      have hwf3 : ClientWF ((sr.1.pendingErase rid).pendingInsert sr.2) := by
        apply pendingInsert_wf _ _ hwf2
        · rw [hsr2]
          simpa using ha
        · rw [hsr2]
          show ridNotIn rp.rid (sr.1.pendingErase rid).pending_requests
          rw [hrr]
          unfold Client.pendingErase
          exact ridNotIn_filter _ _
        · rw [hsr2]
          show ridNotIn rp.rid (sr.1.pendingErase rid).in_flight_requests
          rw [hrr]
          show ridNotIn rid sr.1.in_flight_requests
          rw [hc1i]
          exact hinotin
      split
      · exact scheduleLoad_wf _ hwf3
      · exact hwf3
    | none =>
      unfold Client.findRequest at hfr
      rw [hfp] at hfr
      have hfi : c0.findInFlight rid = some request := hfr
      unfold Client.findPending at hfp
      have hpnotin : ridNotIn rid c0.pending_requests :=
        ridNotIn_of_find?_none _ _ hfp
      unfold Client.findInFlight at hfi
      have hmem : request ∈ c0.in_flight_requests := List.mem_of_find?_eq_some hfi
      have hrr : request.rid = rid := find?_rid_eq _ _ _ hfi
      have hor : request.attributes = kAttributeInFlight ∨
          request.attributes = kAttributeInFlight.lor kAttributeDelayable :=
        hwf0.2.2.1 request hmem
      have hLB := (attr13_flags _ hor).1
      have hinc : c0.inFlightContains request.rid = true := by
        unfold Client.inFlightContains
        rw [hrr]
        exact any_of_find?_some _ _ _ hfi
      have ha := determine_inflight_notLB c0 request hLB hinc
      set a := c0.DetermineRequestAttributes request with haDef
      set sr := c0.SetRequestAttributes request a with hsr
      have hc1p : sr.1.pending_requests = c0.pending_requests := by
        rw [hsr, setRequestAttributes_pending]
        split
        · rfl
        · rw [hrr]
          exact updateReqList_ridNotIn _ _ _ hpnotin
      have hq1 : sr.1.isQueued rid = false := by
        unfold Client.isQueued
        rw [hc1p]
        exact any_false_of_ridNotIn _ _ hpnotin
      rw [if_pos hq1]
      by_cases heq : request.attributes = a
      · have hid : sr.1 = c0 := by
          rw [hsr]
          unfold Client.SetRequestAttributes
          rw [if_pos heq]
        rw [hid]
        exact hwf0
      · have hc1i : sr.1.in_flight_requests =
            updateReqList c0.in_flight_requests rid
              (fun x => { x with attributes := a }) := by
          rw [hsr, setRequestAttributes_inflight, if_neg heq, hrr]
        have hnd := hwf0.2.2.2
        apply wf_of_parts
        · rw [hc1p]
          exact hwf0.2.1
        · rw [hc1i]
          intro x hx
          obtain ⟨y, hy, hxy⟩ := mem_updateReqList _ _ _ _ hx
          rcases hxy with hxy | hxy
          · rw [hxy]
            exact hwf0.2.2.1 y hy
          · rw [hxy]
            exact ha
        · rw [hc1p, hc1i, List.map_append,
            map_rid_updateReqList c0.in_flight_requests rid
              (fun x => { x with attributes := a }) (fun x => rfl),
            ← List.map_append]
          exact hnd
        · have hnodupI : (c0.in_flight_requests.map (fun x => x.rid)).Nodup := by
            rw [List.map_append] at hnd
            exact (List.nodup_append.mp hnd).2.1
          have hcu := cntAttr_update c0.in_flight_requests rid request
            (fun x => { x with attributes := a })
            (kAttributeInFlight.lor kAttributeDelayable) hmem hrr hnodupI
          have hcu2 : cntAttr (updateReqList c0.in_flight_requests rid
                (fun x => { x with attributes := a }))
                (kAttributeInFlight.lor kAttributeDelayable) +
              (if RequestAttributesAreSet request.attributes
                  (kAttributeInFlight.lor kAttributeDelayable) then 1 else 0) =
              cntAttr c0.in_flight_requests
                (kAttributeInFlight.lor kAttributeDelayable) +
              (if RequestAttributesAreSet a
                  (kAttributeInFlight.lor kAttributeDelayable) then 1 else 0) := hcu
          have hposI : (if RequestAttributesAreSet request.attributes
              (kAttributeInFlight.lor kAttributeDelayable) then 1 else 0) ≤
              cntAttr c0.in_flight_requests
                (kAttributeInFlight.lor kAttributeDelayable) := by
            split
            · exact cntAttr_pos_of_mem _ _ _ hmem (by assumption)
            · exact Nat.zero_le _
          rw [hc1i, hsr, setRequestAttributes_delayable, if_neg heq, hd0]
          set X := (if RequestAttributesAreSet request.attributes
              (kAttributeInFlight.lor kAttributeDelayable) then 1 else 0) with hX
          set Y := (if RequestAttributesAreSet a
              (kAttributeInFlight.lor kAttributeDelayable) then 1 else 0) with hY
          omega
        · rw [hsr, setRequestAttributes_lb, if_neg heq, hLB,
            (attr13_flags _ ha).1]
          simp [hl0]

end ResourceSchedulerModel

namespace ResourceSchedulerModel

theorem drainLoop_wf (now : Nat) :
    ∀ (fuel : Nat) (c : Client), ClientWF c →
      ClientWF (Client.drainLoop now fuel c) := by
  intro fuel
  induction fuel with
  | zero => intro c h; exact h
  | succ n ih =>
    intro c hwf
    unfold Client.drainLoop
    cases hp : c.pending_requests with
    | nil => exact hwf
    | cons r rest =>
      dsimp only
      apply ih
      have hmem : r ∈ c.pending_requests := by
        rw [hp]
        exact List.mem_cons_self r rest
      have hor := hwf.2.1 r hmem
      have hnd := hwf.2.2.2
      have hi : ridNotIn r.rid c.in_flight_requests :=
        pending_inflight_disjoint c hnd r hmem
      apply startRequest_wf
      · exact erase_pending_wf c r.rid hwf
      · show ridNotIn r.rid (c.pendingErase r.rid).pending_requests
        unfold Client.pendingErase
        exact ridNotIn_filter _ _
      · exact hi
      · exact hor

theorem startAndRemove_wf (c : Client) (now : Nat) (hwf : ClientWF c) :
    ClientWF (c.StartAndRemoveAllRequests now).1 := by
  unfold Client.StartAndRemoveAllRequests
  dsimp only
  have hwf1 : ClientWF (Client.drainLoop now c.pending_requests.length c) :=
    drainLoop_wf now _ c hwf
  set c1 := Client.drainLoop now c.pending_requests.length c with hc1
  have hnd := hwf1.2.2.2
  apply wf_of_parts
  · intro r hr
    exact hwf1.2.1 r hr
  · intro r hr
    have hr2 : r ∈ ([] : List Request) := hr
    cases hr2
  · show ((c1.pending_requests ++ ([] : List Request)).map
      (fun r : Request => r.rid)).Nodup
    rw [List.append_nil]
    rw [List.map_append] at hnd
    exact (List.nodup_append.mp hnd).1
  · rfl
  · rfl

theorem runPosted_wf (c : Client) (now : Nat) (hwf : ClientWF c) :
    ClientWF (c.RunPostedScan now) := loadAny_wf c now hwf

theorem clientInitial_wf (c : Client) (h : ClientInitial c) : ClientWF c := by
  obtain ⟨hp, hi, hd, hl, _, _⟩ := h
  apply wf_of_parts
  · intro r hr
    rw [hp] at hr
    cases hr
  · intro r hr
    rw [hi] at hr
    cases hr
  · rw [hp, hi]
    simp
  · rw [hd, hi]
    rfl
  · exact hl

theorem step_wf (c c2 : Client) (h : ClientStep c c2) (hwf : ClientWF c) :
    ClientWF c2 := by
  cases h with
  | schedule r now hattrs hfresh =>
    exact scheduleRequest_wf c r now hwf hattrs hfresh
  | remove rid now => exact removeRequest_wf c rid now hwf
  | reprioritize rid op np => exact reprioritize_wf c rid op np hwf
  | scan now => exact loadAny_wf c now hwf
  | runPosted now => exact runPosted_wf c now hwf
  | drain now => exact startAndRemove_wf c now hwf
  | envChange p ect p2p ats ets rtt now =>
    exact loadAny_wf (c.applyNetworkSignals p ect p2p ats ets rtt) now hwf

theorem reachable_wf (c : Client) (h : ClientReachable c) : ClientWF c := by
  induction h with
  | init c h => exact clientInitial_wf c h
  | step c c2 h hs ih => exact step_wf c c2 hs ih

/-- C10: In every client state reachable by scheduler operations from a fresh
client, the cached counters `in_flight_delayable_count_` and
`total_layout_blocking_count_` equal the number of tracked requests whose
attributes contain `kAttributeInFlight | kAttributeDelayable` respectively
`kAttributeLayoutBlocking`. -/
theorem C10_counters_consistent (c : Client) (h : ClientReachable c) :
    CountersConsistent c := (reachable_wf c h).1

theorem C10_witness :
    CountersConsistent (emptyRendererClient.ScheduleRequest (mkRequest 1 LOW) 100) :=
  C10_counters_consistent _
    (ClientReachable.step _ _
      (ClientReachable.init _ ⟨rfl, rfl, rfl, rfl, rfl, rfl⟩)
      (ClientStep.schedule _ _ 100 rfl rfl))

end ResourceSchedulerModel
